import Mathlib

/-!
Verification development for the firewall-configuration converter.

The Python data model (models.py) and the code regions relevant to the
claims are shallowly embedded below:

* Python sets of strings are modelled as `List String`; the list order is
  the set's iteration order (Python set iteration order is an arbitrary,
  hash-dependent enumeration of the members — any list that enumerates the
  members once is a possible iteration).  Membership lookups never depend
  on this order; renderings that iterate a set directly do.
* Python `Optional[str]` fields are `Option String`; Python truthiness of
  a string (`if s:`) is `s ≠ ""` for a present string and false for `None`.
* Python dicts are modelled as association lists built with `dictUpsert`
  (insert-or-overwrite keeping the original position, exactly the
  insertion-order semantics of `dict`), looked up with `dictFind?`.
* All character-level string manipulation is carried out on `String.data`
  with structurally recursive list functions (semantically the same
  operations the Python code performs on its ASCII configuration text).
* String fields that no claim mentions (`original_text`, free-text
  descriptions and recommendations, `security_profiles`, `context`,
  `vdom`) are projected away.
-/

namespace FwConv

/-! ## Structural string helpers -/

/-- Python `str.lower` for the ASCII names occurring in firewall
configurations. -/
def pyLower (s : String) : String := String.mk (s.data.map Char.toLower)

/-- `p` is a prefix of `s` (Python `str.startswith`). -/
def strStartsWith (s p : String) : Bool := p.data.isPrefixOf s.data

/-- `p` is a suffix of `s` (Python `str.endswith`). -/
def strEndsWith (s p : String) : Bool := p.data.isSuffixOf s.data

/-- Python `c in s` for a single character. -/
def strHasChar (s : String) (c : Char) : Bool := s.data.contains c

/-- Python whitespace strip on both ends (`str.strip()`). -/
def strTrim (s : String) : String :=
  String.mk (((s.data.dropWhile Char.isWhitespace).reverse.dropWhile
    Char.isWhitespace).reverse)

/-- Left-to-right non-overlapping replacement of a non-empty pattern
(Python `str.replace`); every hit consumes at least one character, so the
input length is enough fuel. -/
def replaceChars (pat rep : List Char) : Nat → List Char → List Char
  | 0, cs => cs
  | _ + 1, [] => []
  | fuel + 1, c :: rest =>
    if pat ≠ [] && pat.isPrefixOf (c :: rest) then
      rep ++ replaceChars pat rep fuel ((c :: rest).drop pat.length)
    else c :: replaceChars pat rep fuel rest

/-- Python `s.replace(pat, rep)` (the embedded code never replaces an
empty pattern). -/
def strReplace (s pat rep : String) : String :=
  String.mk (replaceChars pat.data rep.data s.data.length s.data)

/-- Python `s.split(sep)` for a one-character separator. -/
def splitOnChar (c : Char) (cs : List Char) : List (List Char) :=
  cs.foldr (fun x acc =>
    match acc with
    | [] => if x == c then [[], []] else [[x]]
    | a :: as => if x == c then [] :: a :: as else (x :: a) :: as) [[]]

/-- Code-point lexicographic `≤` on character lists (Python string
comparison for ASCII text). -/
def charListLe : List Char → List Char → Bool
  | [], _ => true
  | _ :: _, [] => false
  | a :: as, b :: bs =>
    if a.toNat < b.toNat then true
    else if b.toNat < a.toNat then false
    else charListLe as bs

/-- Python `s1 <= s2` on strings. -/
def strLe (a b : String) : Bool := charListLe a.data b.data

/-- Decimal digits to a natural number. -/
def digitsToNat (cs : List Char) : Nat :=
  cs.foldl (fun n c => n * 10 + (c.toNat - 48)) 0

/-- Truthiness of an `Optional[str]` value in Python (`if x:`). -/
def optTruthy : Option String → Bool
  | some s => s ≠ ""
  | none => false

/-- Python `dict[k] = v`: overwrite in place if the key exists (keeping its
position), else append. -/
def dictUpsert (d : List (String × String)) (k v : String) : List (String × String) :=
  if d.any (fun p => p.1 == k) then d.map (fun p => if p.1 == k then (k, v) else p)
  else d ++ [(k, v)]

/-- Python `dict.get(k)`: first (and, for `dictUpsert`-built lists, only)
binding of the key. -/
def dictFind? (d : List (String × String)) (k : String) : Option String :=
  (d.find? (fun p => p.1 == k)).map (fun p => p.2)

/-- Python `set.add`: append the element unless already present. -/
def setInsert (l : List String) (x : String) : List String :=
  if l.contains x then l else l ++ [x]

/-! ## IR data model (models.py) -/

/-- Address entity (models.py `Address`): `type ∈ {host, network, range, fqdn}`. -/
structure Address where
  name : String
  type : String
  value1 : String
  value2 : Option String := none
  deriving Repr, DecidableEq

/-- Service entity (models.py `Service`). -/
structure Service where
  name : String
  protocol : String
  port : String
  deriving Repr, DecidableEq

/-- Address group (models.py `Group`). -/
structure Group where
  name : String
  members : List String := []
  deriving Repr, DecidableEq

/-- Service group (models.py `ServiceGroup`). -/
structure ServiceGroup where
  name : String
  members : List String := []
  deriving Repr, DecidableEq

/-- Firewall rule (models.py `Rule`). -/
structure Rule where
  sequence_id : Nat
  name : String
  action : String
  remark : Option String := none
  enabled : Bool := true
  log : Bool := false
  hit_count : Nat := 0
  time_range : Option String := none
  source_interface : List String := []
  destination_interface : List String := []
  source : List String := []
  destination : List String := []
  service : List String := []
  application : List String := []
  deriving Repr, DecidableEq

/-- NAT rule (models.py `NatRule`). -/
structure NatRule where
  sequence_id : Nat
  name : String
  original_source : List String := []
  translated_source : Option String := none
  original_destination : List String := []
  translated_destination : Option String := none
  original_service : List String := []
  translated_service : Option String := none
  source_interface : List String := []
  destination_interface : List String := []
  enabled : Bool := true
  remark : Option String := none
  deriving Repr, DecidableEq

/-- Top-level container (models.py `FirewallConfig`); entity sets are kept
in iteration order, rules and NAT rules are genuine Python lists. -/
structure FirewallConfig where
  addresses : List Address := []
  services : List Service := []
  address_groups : List Group := []
  service_groups : List ServiceGroup := []
  rules : List Rule := []
  nat_rules : List NatRule := []
  deriving Repr, DecidableEq

/-! ## Analyzer (analyzers/pre_migration_analyzer.py) -/

/-- Report entry for a shadowed rule pair
(`PreMigrationAnalyzer.OverlappingRule`). -/
structure OverlappingRule where
  rule_name : String
  rule_id : Nat
  shadowed_by : String
  shadowed_by_id : Nat
  deriving Repr, DecidableEq

/-- Report entry for a security risk (`PreMigrationAnalyzer.SecurityRisk`);
the free-text description/recommendation fields are projected away. -/
structure SecurityRisk where
  severity : String
  category : String
  item_name : String
  deriving Repr, DecidableEq

/-- Report entry for duplicate objects (`PreMigrationAnalyzer.DuplicateObject`). -/
structure DuplicateObject where
  type : String
  original_name : String
  duplicate_names : List String
  value : String
  deriving Repr, DecidableEq

/-- `PreMigrationAnalyzer._is_subset_or_any(specific, broader)`: lowercase both
sides; `broader` containing `any`/`all` is universal; an empty `specific` is
never a subset of a non-universal `broader`. -/
def isSubsetOrAny (specific broader : List String) : Bool :=
  let broaderLower := broader.map pyLower
  let specificLower := specific.map pyLower
  if broaderLower.contains "any" || broaderLower.contains "all" then true
  else if specificLower.isEmpty then false
  else specificLower.all (fun x => broaderLower.contains x)

/-- `PreMigrationAnalyzer._is_shadowing(broader_rule, specific_rule)`. -/
def isShadowing (broader specific : Rule) : Bool :=
  broader.action == specific.action &&
  isSubsetOrAny specific.source broader.source &&
  isSubsetOrAny specific.destination broader.destination &&
  isSubsetOrAny specific.service broader.service

/-- `PreMigrationAnalyzer._find_overlapping_rules`: the double loop over
`enumerate(rules)` skipping `i >= j`. -/
def findOverlappingRules (rules : List Rule) : List OverlappingRule :=
  rules.enum.flatMap (fun p1 =>
    rules.enum.filterMap (fun p2 =>
      if p1.1 < p2.1 && isShadowing p1.2 p2.2 then
        some { rule_name := p2.2.name, rule_id := p2.1 + 1,
               shadowed_by := p1.2.name, shadowed_by_id := p1.1 + 1 }
      else none))

/-- Lowered action is one of allow/permit/accept (the test
`action_lower in ['allow', 'permit', 'accept']` used by the analyzer;
an absent/empty action lowers to a string not in the list). -/
def actionAllowLike (r : Rule) : Bool :=
  pyLower r.action == "allow" || pyLower r.action == "permit" ||
    pyLower r.action == "accept"

/-- A field set counts as "any" for `_is_any_any_any`: it is empty or its
lowercased members include `any` or `all`. -/
def fieldIsAny (l : List String) : Bool :=
  l.isEmpty || (l.map pyLower).contains "any" || (l.map pyLower).contains "all"

/-- `PreMigrationAnalyzer._is_any_any_any(rule)`. -/
def isAnyAnyAny (r : Rule) : Bool :=
  actionAllowLike r && fieldIsAny r.source && fieldIsAny r.destination &&
    fieldIsAny r.service

/-- `not rule.remark or rule.remark.strip() == ''`. -/
def remarkMissing (r : Rule) : Bool :=
  match r.remark with
  | none => true
  | some s => strTrim s == ""

/-- `rule.service` lowered contains `any` or `all` (the any-service check). -/
def serviceIsAnyAll (r : Rule) : Bool :=
  (r.service.map pyLower).contains "any" || (r.service.map pyLower).contains "all"

/-- `PreMigrationAnalyzer._find_security_risks`: five passes over the rule
list, in source order (any-any-any criticals, disabled, no-logging,
any-service, no-description). -/
def findSecurityRisks (rules : List Rule) : List SecurityRisk :=
  (rules.filterMap fun r =>
    if isAnyAnyAny r then some ⟨"critical", "any-any-any", r.name⟩ else none) ++
  (rules.filterMap fun r =>
    if !r.enabled then some ⟨"low", "disabled-rule", r.name⟩ else none) ++
  (rules.filterMap fun r =>
    if actionAllowLike r && !r.log then some ⟨"medium", "no-logging", r.name⟩ else none) ++
  (rules.filterMap fun r =>
    if actionAllowLike r && serviceIsAnyAll r then
      some ⟨"high", "any-service", r.name⟩ else none) ++
  (rules.filterMap fun r =>
    if remarkMissing r then some ⟨"low", "no-description", r.name⟩ else none)

/-- `PreMigrationAnalyzer._get_address_key`; `f"{addr.value2}"` renders a
missing value as the string `None`. -/
def getAddressKey (a : Address) : String :=
  let v2 := match a.value2 with | some s => s | none => "None"
  if a.type == "host" then "host:" ++ a.value1
  else if a.type == "network" then "network:" ++ a.value1 ++ "/" ++ v2
  else if a.type == "range" then "range:" ++ a.value1 ++ "-" ++ v2
  else if a.type == "fqdn" then "fqdn:" ++ pyLower a.value1
  else "unknown:" ++ a.value1

/-- `PreMigrationAnalyzer._get_service_key`. -/
def getServiceKey (s : Service) : String :=
  (if s.protocol == "" then "tcp" else pyLower s.protocol) ++ ":" ++
    (if s.port == "" then "any" else s.port)

/-- Distinct keys in order of first occurrence (the key order of a Python
dict filled by a single pass). -/
def firstOccurrences (l : List String) : List String := go l []
where
  go : List String → List String → List String
    | [], _ => []
    | k :: ks, seen =>
      if seen.contains k then go ks seen else k :: go ks (k :: seen)

/-- Group a keyed list the way `_find_duplicate_objects` fills `value_map`:
one `DuplicateObject` per key held by more than one entity, entities in
iteration order. -/
def duplicatesByKey (ty : String) (names : List String) (keys : List String) :
    List DuplicateObject :=
  (firstOccurrences keys).filterMap fun k =>
    let grp := (names.zip keys).filterMap fun p => if p.2 == k then some p.1 else none
    match grp with
    | [] => none
    | [_] => none
    | n :: rest => some ⟨ty, n, rest, k⟩

/-- `PreMigrationAnalyzer._find_duplicate_objects`: address duplicates then
service duplicates. -/
def findDuplicateObjects (addresses : List Address) (services : List Service) :
    List DuplicateObject :=
  duplicatesByKey "address" (addresses.map Address.name) (addresses.map getAddressKey) ++
    duplicatesByKey "service" (services.map Service.name) (services.map getServiceKey)

/-- `PreMigrationAnalyzer._find_unused_objects`: zero-hit enabled rules, but
only when at least one rule carries a non-zero hit count. -/
def findUnusedObjects (rules : List Rule) : List String :=
  if rules.any (fun r => r.hit_count > 0) then
    rules.filterMap fun r =>
      if r.enabled && r.hit_count == 0 then
        some ("Rule \x27" ++ r.name ++ "\x27 (0 hits) - Consider removing")
      else none
  else []

/-- The four scores returned by `_calculate_scores`. -/
structure Scores where
  optimization_score : Nat
  security_score : Nat
  complexity_score : Nat
  overall_score : Nat
  deriving Repr, DecidableEq

/-- Severity weight used for the security score. -/
def severityWeight (s : SecurityRisk) : Nat :=
  if s.severity == "critical" then 20
  else if s.severity == "high" then 10
  else if s.severity == "medium" then 5
  else 2

/-- `max(0, min(100, 100 - d))` for a natural deduction `d` (`Nat`
subtraction already truncates at zero). -/
def clampScore (d : Nat) : Nat := min 100 (100 - d)

/-- `PreMigrationAnalyzer._calculate_scores`.  The Python overall score is
`int(opt*0.25 + sec*0.5 + cpx*0.25)`: with the three sub-scores integers in
[0, 100] every float product and the sum are exact dyadic rationals, so the
truncation equals natural floor division `(opt + 2*sec + cpx) / 4`. -/
def calculateScores (duplicates : List DuplicateObject) (overlaps : List OverlappingRule)
    (risks : List SecurityRisk) (unused : List String) (totalRules : Nat) : Scores :=
  let optimization := clampScore (duplicates.length * 5 + unused.length * 2)
  let security := clampScore (risks.foldl (fun acc r => acc + severityWeight r) 0)
  let complexity := clampScore (overlaps.length * 10 +
    (if totalRules > 500 then 20 else if totalRules > 200 then 10 else 0))
  { optimization_score := optimization, security_score := security,
    complexity_score := complexity,
    overall_score := (optimization + 2 * security + complexity) / 4 }

/-- The score block of `PreMigrationAnalyzer.analyze`. -/
def analyzeScores (cfg : FirewallConfig) : Scores :=
  calculateScores (findDuplicateObjects cfg.addresses cfg.services)
    (findOverlappingRules cfg.rules) (findSecurityRisks cfg.rules)
    (findUnusedObjects cfg.rules) cfg.rules.length

/-! ## Shared generator string helpers -/

/-- `while "--" in s: s = s.replace("--", "-")` (both generators); each
round of replacement strictly shortens the string when a `--` occurs, so
string length is enough fuel. -/
def collapseDoubleDash (s : String) : String := go s.data.length s
where
  go : Nat → String → String
    | 0, s => s
    | n + 1, s =>
      let t := strReplace s "--" "-"
      if t == s then s else go n t

/-- Python `\w` for the ASCII names occurring in configurations:
alphanumeric or underscore. -/
def isWordChar (c : Char) : Bool := c.isAlphanum || c == '_'

/-- `FortinetGenerator._sanitize_name`: map every character outside
`[\w.\-]` to `_`, rewrite the `TCP_eq-`/`UDP_eq-` artifacts, collapse
double dashes, strip underscores at both ends, truncate to 79 chars. -/
def fortinetSanitizeName (name : String) : String :=
  if name == "" then ""
  else
    let s1 := String.mk (name.data.map fun c =>
      if isWordChar c || c == '.' || c == '-' then c else '_')
    let s2 := strReplace (strReplace s1 "TCP_eq-" "TCP-") "UDP_eq-" "UDP-"
    let s3 := strReplace (strReplace s2 "tcp_eq-" "TCP-") "udp_eq-" "UDP-"
    let s4 := collapseDoubleDash s3
    let s5 := ((s4.data.dropWhile (· == '_')).reverse.dropWhile (· == '_')).reverse
    String.mk (s5.take 79)

/-- Python `int(s)` on the decimal strings a CIDR/mask field can hold
(optional sign followed by digits); anything else raises and lands in the
`except` branch, modelled by `none`. -/
def pyInt? (s : String) : Option Int :=
  match (strTrim s).data with
  | [] => none
  | '-' :: rest =>
    if rest ≠ [] && rest.all Char.isDigit then some (-(digitsToNat rest : Int)) else none
  | l => if l.all Char.isDigit then some (digitsToNat l : Int) else none

/-! ## Fortinet generator (generators/fortinet_generator.py) -/

/-- One `edit` block of `FortinetGenerator._generate_addresses` (an
`Address` dataclass has no `description` attribute, so the
`getattr(addr, 'description', None)` guard is never taken);
`f"{None}"` renders as the string `None` in the branches a missing
`value2` can reach. -/
def fortinetAddressEntry (addr : Address) : String :=
  let name := fortinetSanitizeName addr.name
  let v2 := match addr.value2 with | some s => s | none => "None"
  let body :=
    if addr.type == "host" then
      "        set subnet " ++ addr.value1 ++ " 255.255.255.255\n"
    else if addr.type == "network" then
      match addr.value2 with
      | some v =>
        match pyInt? v with
        | some n =>
          if n ≤ 32 then "        set subnet " ++ addr.value1 ++ "/" ++ v ++ "\n"
          else "        set subnet " ++ addr.value1 ++ " " ++ v ++ "\n"
        | none => "        set subnet " ++ addr.value1 ++ " " ++ v ++ "\n"
      | none => "        set subnet " ++ addr.value1 ++ " None\n"
    else if addr.type == "range" then
      if addr.value2 == some addr.value1 then
        "        set subnet " ++ addr.value1 ++ " 255.255.255.255\n"
      else
        "        set type iprange\n" ++ "        set start-ip " ++ addr.value1 ++ "\n" ++
          "        set end-ip " ++ v2 ++ "\n"
    else if addr.type == "fqdn" then
      "        set type fqdn\n" ++ "        set fqdn \"" ++ addr.value1 ++ "\"\n"
    else ""
  "    edit \"" ++ name ++ "\"\n" ++ body ++ "    next\n"

/-- `FortinetGenerator._generate_addresses`: iterates `self.config.addresses`
(a Python set) directly, in iteration order, with no sorting. -/
def fortinetGenerateAddresses (addrs : List Address) : String :=
  if addrs.isEmpty then ""
  else "config firewall address\n" ++ String.join (addrs.map fortinetAddressEntry) ++
    "end\n\n"

/-- `FortinetGenerator.FORTINET_DEFAULTS` in its Python dict insertion
order (name, protocol, port). -/
def FORTINET_DEFAULTS : List (String × String × Option String) :=
  [("ALL", "ip", none), ("ALL_TCP", "tcp", some "1-65535"),
   ("ALL_UDP", "udp", some "1-65535"), ("ALL_ICMP", "icmp", none),
   ("PING", "icmp", none), ("IKE", "udp", some "500"),
   ("HTTP", "tcp", some "80"), ("HTTPS", "tcp", some "443"),
   ("SSH", "tcp", some "22"), ("TELNET", "tcp", some "23"),
   ("FTP", "tcp", some "21"), ("SMTP", "tcp", some "25"),
   ("DNS", "udp", some "53"), ("NTP", "udp", some "123"),
   ("SNMP", "udp", some "161"), ("LDAP", "tcp", some "389"),
   ("LDAPS", "tcp", some "636"), ("BGP", "tcp", some "179"),
   ("SYSLOG", "udp", some "514"), ("NFS", "tcp", some "2049"),
   ("GRE", "ip", none), ("DHCP", "udp", some "67"),
   ("PPTP", "tcp", some "1723"), ("RDP", "tcp", some "3389"),
   ("NETBIOS-SSN", "tcp", some "139"), ("ONC-RPC", "tcp", some "111")]

/-- `FortinetGenerator.PORT_NAME_MAP`. -/
def PORT_NAME_MAP : List (String × String) :=
  [("isakmp", "500"), ("bootps", "67"), ("bootpc", "68"), ("domain", "53"),
   ("www", "80"), ("pop3", "110"), ("imap4", "143"), ("sunrpc", "111"),
   ("pptp", "1723"), ("ldaps", "636"), ("ms-wbt-server", "3389"),
   ("rdp", "3389"), ("netbios-ssn", "139")]

/-- `FortinetGenerator._normalize_port`. -/
def normalizePort (port : String) : Option String :=
  if port == "" then none
  else
    let clean := strTrim (strReplace (strReplace (pyLower port) "eq " "") "range " "")
    match dictFind? PORT_NAME_MAP clean with
    | some v => some v
    | none =>
      if strHasChar clean ' ' then some (strReplace clean " " "-") else some clean

/-- The inner loop of `_optimize_configuration` step 1: first FortiOS
default whose protocol matches and whose port either is absent or equals
the normalized custom port; services already bearing a default name are
skipped. -/
def findDefaultReplacement (svc : Service) : Option String :=
  if (FORTINET_DEFAULTS.map (fun d => d.1)).contains svc.name then none
  else
    let proto := pyLower svc.protocol
    let portNorm := normalizePort svc.port
    FORTINET_DEFAULTS.findSome? fun d =>
      if d.2.1 == proto then
        match d.2.2 with
        | none => some d.1
        | some p => if portNorm == some p then some d.1 else none
      else none

/-- `replacement_map` of `_optimize_configuration` (dict from custom
service name to replacing default name, in service-iteration order). -/
def replacementMap (services : List Service) : List (String × String) :=
  services.foldl (fun d s =>
    match findDefaultReplacement s with
    | some dn => dictUpsert d s.name dn
    | none => d) []

/-- `replace_in_collection` of `_optimize_configuration` (the result is a
Python set; we keep the produced elements in order, which preserves
membership). -/
def replaceInCollection (rm : List (String × String)) (col : List String) : List String :=
  col.foldl (fun acc item =>
    match dictFind? rm item with
    | some v => setInsert acc v
    | none => setInsert acc item) []

/-- `if nat.translated_service and nat.translated_service in replacement_map`. -/
def replaceTranslatedService (rm : List (String × String)) :
    Option String → Option String
  | none => none
  | some ts =>
    if ts ≠ "" then
      match dictFind? rm ts with
      | some v => some v
      | none => some ts
    else some ts

/-- `FortinetGenerator._optimize_configuration`: builds the replacement map,
rewrites rule services, NAT services and service-group members in place,
and removes the canonicalized custom services from the IR. -/
def optimizeConfiguration (cfg : FirewallConfig) : FirewallConfig :=
  if (replacementMap cfg.services).isEmpty then cfg
  else
    { cfg with
      rules := cfg.rules.map fun r =>
        { r with service := replaceInCollection (replacementMap cfg.services) r.service },
      nat_rules := cfg.nat_rules.map fun n =>
        { n with
          original_service :=
            replaceInCollection (replacementMap cfg.services) n.original_service,
          translated_service :=
            replaceTranslatedService (replacementMap cfg.services) n.translated_service },
      service_groups := cfg.service_groups.map fun g =>
        { g with members := replaceInCollection (replacementMap cfg.services) g.members },
      services := cfg.services.filter fun s =>
        !((replacementMap cfg.services).map (fun p => p.1)).contains s.name }

/-- The effect of `FortinetGenerator.generate` on the IR it was given:
`generate` first calls `_optimize_configuration` (which mutates
`self.config`); every later `_generate_*` step only reads the IR and
writes to the output buffer. -/
def fortinetGenerateIRState (cfg : FirewallConfig) : FirewallConfig :=
  optimizeConfiguration cfg

/-! ## Palo Alto generator (generators/palo_alto_generator.py)

Standalone (`firewall`) output mode is modelled: `_get_cmd_prefix` returns
the bare `set` for object commands, which the claims do not depend on. -/

/-- `PaloAltoSetGenerator._sanitize_name`: `/` and `&` become `n`, the
`_eq`/`-eq` ASA artifacts are removed, double dashes are collapsed. -/
def paSanitizeName (name : String) : String :=
  if name == "" then ""
  else
    let n1 := strReplace (strReplace name "/" "n") "&" "n"
    let n2 := strReplace (strReplace n1 "_eq" "") "-eq" ""
    collapseDoubleDash n2

/-- `sorted(self.config.addresses, key=lambda x: x.name)`: a stable
ascending sort by name; stable insertion sort computes exactly the list
Python's stable sort returns. -/
def sortAddrs (addrs : List Address) : List Address :=
  List.insertionSort (fun a b => strLe a.name b.name = true) addrs

/-- One address step of the `wildcard_fqdns` collection in the main loop
of `_generate_addresses`. -/
def wildcardStep (d : List (String × String)) (a : Address) : List (String × String) :=
  if a.type == "fqdn" && strStartsWith a.value1 "*" then
    dictUpsert d (paSanitizeName a.name) a.value1
  else d

/-- The `self.wildcard_fqdns` dict after the main loop of
`_generate_addresses`: sanitized name of every fqdn address whose value
starts with `*`, mapped to its value, in sorted-address order. -/
def wildcardFqdnMap (addrs : List Address) : List (String × String) :=
  (sortAddrs addrs).foldl wildcardStep []

/-- The address-object commands of the main loop of `_generate_addresses`,
as (object name, command line) pairs; wildcard fqdn addresses are skipped
(`continue`), unrecognized types write nothing. -/
def paAddressLines (addrs : List Address) : List (String × String) :=
  (sortAddrs addrs).filterMap fun a =>
    let clean := paSanitizeName a.name
    let v2 := match a.value2 with | some s => s | none => "None"
    if a.type == "fqdn" && strStartsWith a.value1 "*" then none
    else if a.type == "host" then
      some (clean, "set address \"" ++ clean ++ "\" ip-netmask " ++ a.value1 ++ "/32")
    else if a.type == "network" then
      some (clean, "set address \"" ++ clean ++ "\" ip-netmask " ++ a.value1 ++ "/" ++ v2)
    else if a.type == "range" then
      some (clean, "set address \"" ++ clean ++ "\" ip-range " ++ a.value1 ++ "-" ++ v2)
    else if a.type == "fqdn" then
      some (clean, "set address \"" ++ clean ++ "\" fqdn " ++ a.value1)
    else none

/-- The regex `^\d{1,3}\.\d{1,3}\.\d{1,3}\.\d{1,3}$`: exactly four runs of
one to three digits joined by dots. -/
def isIpLiteral (s : String) : Bool :=
  let parts := splitOnChar '.' s.data
  parts.length == 4 && parts.all fun p =>
    1 ≤ p.length && p.length ≤ 3 && p.all Char.isDigit

/-- The regex `^(ip)-(ip)$` used for SNAT pool ranges: since an IP literal
contains no dash, this is exactly two IP literals joined by one dash. -/
def isRangeLiteral (s : String) : Bool :=
  match splitOnChar '-' s.data with
  | [a, b] => isIpLiteral (String.mk a) && isIpLiteral (String.mk b)
  | _ => false

/-- One octet-plus-dot step of `re.search(r'(\d{1,3}\.…)', s)`: a digit run
of length one to three that is immediately followed by a dot (a longer run
cannot match, because every shorter greedy attempt still faces a digit
where the dot is required). -/
def ipOctetDot? (cs : List Char) : Option (List Char × List Char) :=
  let ds := cs.takeWhile Char.isDigit
  if 1 ≤ ds.length && ds.length ≤ 3 then
    match cs.drop ds.length with
    | c :: rest => if c == '.' then some (ds, rest) else none
    | [] => none
  else none

/-- Try the IP pattern at the current position (three octet-dot groups and
a final greedy run of up to three digits). -/
def ipMatchAt (cs : List Char) : Option String := do
  let (a, r1) ← ipOctetDot? cs
  let (b, r2) ← ipOctetDot? r1
  let (c, r3) ← ipOctetDot? r2
  let ds := r3.takeWhile Char.isDigit
  if ds.length ≥ 1 then
    some (String.mk (a ++ '.' :: b ++ '.' :: c ++ '.' :: ds.take 3))
  else none

/-- `re.search(r'(\d{1,3}\.\d{1,3}\.\d{1,3}\.\d{1,3})', s)`: leftmost
position at which the pattern matches. -/
def extractIp? (s : String) : Option String := go s.data
where
  go : List Char → Option String
    | [] => none
    | c :: rest =>
      match ipMatchAt (c :: rest) with
      | some m => some m
      | none => go rest

/-- The translated-source half of one NAT rule step of the NAT-pool
section of `_generate_addresses`: threads the `existing_address_names`
set and appends emitted (name, command) pairs; sources may be created as
host, range or extracted-IP objects. -/
def natPoolSrcStep (st : List String × List (String × String)) (nat : NatRule) :
    List String × List (String × String) :=
  match nat.translated_source with
  | some ts =>
    if ts ≠ "" && pyLower ts ≠ "dynamic-ip-and-port" && pyLower ts ≠ "original" then
      if !st.1.contains (paSanitizeName ts) then
        if isIpLiteral ts then
          (st.1 ++ [paSanitizeName ts],
           st.2 ++ [(paSanitizeName ts, "set address \"" ++ paSanitizeName ts ++
             "\" ip-netmask " ++ ts ++ "/32")])
        else if isRangeLiteral ts then
          (st.1 ++ [paSanitizeName ts],
           st.2 ++ [(paSanitizeName ts, "set address \"" ++ paSanitizeName ts ++
             "\" ip-range " ++ ts)])
        else
          match extractIp? ts with
          | some ip =>
            (st.1 ++ [paSanitizeName ts],
             st.2 ++ [(paSanitizeName ts, "set address \"" ++ paSanitizeName ts ++
               "\" ip-netmask " ++ ip ++ "/32")])
          | none => st
      else st
    else st
  | none => st

/-- The translated-destination half of one NAT rule step of the NAT-pool
section: destinations are only created as host objects for literal IPs. -/
def natPoolDstStep (st : List String × List (String × String)) (nat : NatRule) :
    List String × List (String × String) :=
  match nat.translated_destination with
  | some td =>
    if td ≠ "" && pyLower td ≠ "original" then
      if !st.1.contains (paSanitizeName td) then
        if isIpLiteral td then
          (st.1 ++ [paSanitizeName td],
           st.2 ++ [(paSanitizeName td, "set address \"" ++ paSanitizeName td ++
             "\" ip-netmask " ++ td ++ "/32")])
        else st
      else st
    else st
  | none => st

/-- One NAT rule step of the NAT-pool section of `_generate_addresses`:
translated source first, then translated destination. -/
def natPoolStep (st : List String × List (String × String)) (nat : NatRule) :
    List String × List (String × String) :=
  natPoolDstStep (natPoolSrcStep st nat) nat

/-- All address-object commands `_generate_addresses` emits: the main loop
plus the NAT-pool synthesis section, whose `existing_address_names` set
starts as the sanitized names of every IR address. -/
def paAllAddressCommands (cfg : FirewallConfig) : List (String × String) :=
  paAddressLines cfg.addresses ++
    (cfg.nat_rules.foldl natPoolStep
      (cfg.addresses.map (fun a => paSanitizeName a.name), [])).2

/-- The custom-url-category entries `_generate_addresses` emits: one per
`wildcard_fqdns` dict entry. -/
def paUrlCategories (cfg : FirewallConfig) : List (String × String) :=
  wildcardFqdnMap cfg.addresses

/-- The `dnat_reverse_map` built at the start of `_generate_rules`:
truthy translated-destination mapped to the first iterated element of a
non-empty original-destination, later NAT rules overwriting earlier ones. -/
def dnatReverseMap (nats : List NatRule) : List (String × String) :=
  nats.foldl (fun d n =>
    if optTruthy n.translated_destination && !n.original_destination.isEmpty then
      dictUpsert d (n.translated_destination.getD "") (n.original_destination.headD "")
    else d) []

/-- Resolution of one destination member in `_generate_rules`: a wildcard
fqdn reference contributes to the category set (`none` here), a
translated-destination is swapped for the mapped original-destination,
anything else passes through. -/
def resolveDest (wild dmap : List (String × String)) (d : String) : Option String :=
  if (dictFind? wild (paSanitizeName d)).isSome then none
  else
    match dictFind? dmap d with
    | some v => some v
    | none => some d

/-- One destination-member step of the destination loop of
`_generate_rules`. -/
def paDestStep (wild dmap : List (String × String))
    (acc : List String × List String) (d : String) : List String × List String :=
  if (dictFind? wild (paSanitizeName d)).isSome then
    (acc.1, setInsert acc.2 (paSanitizeName d))
  else
    match dictFind? dmap d with
    | some v => (setInsert acc.1 v, acc.2)
    | none => (setInsert acc.1 d, acc.2)

/-- The destination loop of `_generate_rules`: returns
(`final_destinations`, `custom_url_categories`) in iteration order. -/
def paDestAndCats (wild dmap : List (String × String)) (dest : List String) :
    List String × List String :=
  dest.foldl (paDestStep wild dmap) ([], [])

/-- `final_destinations` for a rule of a full configuration. -/
def paRuleFinalDests (cfg : FirewallConfig) (r : Rule) : List String :=
  (paDestAndCats (wildcardFqdnMap cfg.addresses) (dnatReverseMap cfg.nat_rules)
    r.destination).1

/-- `custom_url_categories` for a rule of a full configuration. -/
def paRuleCategories (cfg : FirewallConfig) (r : Rule) : List String :=
  (paDestAndCats (wildcardFqdnMap cfg.addresses) (dnatReverseMap cfg.nat_rules)
    r.destination).2

/-- The emitted `destination` member string of a generated security rule:
sorted members, collapsed to the literal `any` when empty or containing
`any`/`all` (case-insensitively). -/
def paDestMembersStr (cfg : FirewallConfig) (r : Rule) : String :=
  let dstList := List.insertionSort (fun a b => strLe a b = true) (paRuleFinalDests cfg r)
  if dstList.isEmpty || dstList.any (fun d => pyLower d == "any" || pyLower d == "all") then
    "any"
  else
    "[ " ++ String.join (List.intersperse " "
      (dstList.map fun m => "\"" ++ paSanitizeName m ++ "\"")) ++ " ]"

/-! ## Fortinet parser (parsers/fortinet_parser.py) -/

/-- Python `s.split(" ", 1)`: the part before the first space and the rest
(`none` when the string holds no space). -/
def splitFirstSpace (s : String) : Option (String × String) :=
  let cs := s.data
  let before := cs.takeWhile (fun c => c ≠ ' ')
  if before.length == cs.length then none
  else some (String.mk before, String.mk (cs.drop (before.length + 1)))

/-- Strip one pair of surrounding double quotes, as
`value[1:-1] if value.startswith('"') and value.endswith('"') else value`. -/
def stripQuotes (v : String) : String :=
  if strStartsWith v "\"" && strEndsWith v "\"" then
    String.mk ((v.data.drop 1).dropLast)
  else v

/-- `FortinetParser._get_edit_value`. -/
def getEditValue (line : String) : String :=
  match splitFirstSpace line with
  | none => ""
  | some p => stripQuotes (strTrim p.2)

/-- `FortinetParser._get_set_value` (`line.split(" ", 2)` and the third
part, stripped of whitespace and one quote pair). -/
def getSetValue (line : String) : String :=
  match splitFirstSpace line with
  | none => ""
  | some p =>
    match splitFirstSpace p.2 with
    | none => ""
    | some q => stripQuotes (strTrim q.2)

/-- `re.findall(r'(?:"([^"]+)"|(\S+))', content)`: left-to-right scan; a
non-empty quoted token is taken without its quotes, otherwise any maximal
non-space run (which may start with an unpaired or empty quote) is a token. -/
def extractTokensGo : Nat → List Char → List String
  | 0, _ => []
  | _ + 1, [] => []
  | fuel + 1, c :: rest =>
    if c.isWhitespace then extractTokensGo fuel rest
    else if c == '"' then
      let inner := rest.takeWhile (fun x => x ≠ '"')
      match rest.drop inner.length with
      | '"' :: rest2 =>
        if inner.length ≥ 1 then String.mk inner :: extractTokensGo fuel rest2
        else
          let run := (c :: rest).takeWhile (fun x => !x.isWhitespace)
          String.mk run :: extractTokensGo fuel ((c :: rest).drop run.length)
      | _ =>
        let run := (c :: rest).takeWhile (fun x => !x.isWhitespace)
        String.mk run :: extractTokensGo fuel ((c :: rest).drop run.length)
    else
      let run := (c :: rest).takeWhile (fun x => !x.isWhitespace)
      String.mk run :: extractTokensGo fuel ((c :: rest).drop run.length)

/-- `FortinetParser._extract_multi_values`: third `split(" ", 2)` part run
through the token regex. -/
def extractMultiValues (line : String) : List String :=
  match splitFirstSpace line with
  | none => []
  | some p =>
    match splitFirstSpace p.2 with
    | none => []
    | some q => extractTokensGo q.2.data.length q.2.data

/-- The anchored case-insensitive group `^(TCP/UDP|UDP/TCP)[_\-\s]*` of
`_clean_service_name`: both alternatives are seven characters long. -/
def stripMixedProtoLabel (s : String) : String :=
  if strStartsWith (pyLower s) "tcp/udp" || strStartsWith (pyLower s) "udp/tcp" then
    String.mk ((s.data.drop 7).dropWhile fun c =>
      c == '_' || c == '-' || c.isWhitespace)
  else s

/-- `str.lstrip('_-. ')`. -/
def lstripNamePunct (s : String) : String :=
  String.mk (s.data.dropWhile fun c => c == '_' || c == '-' || c == '.' || c == ' ')

/-- `FortinetParser._clean_service_name`. -/
def cleanServiceName (name : String) : String :=
  let c1 := stripMixedProtoLabel name
  let c2 := strReplace (strReplace c1 "/" "") "\\" ""
  let c3 := strTrim (lstripNamePunct c2)
  if c3 == "" then strReplace (strReplace name "/" "_") "\\" "_" else c3

/-- The fields `_parse_service_entry` scans out of the entry body. -/
structure SvcScan where
  tcp_port : Option String := none
  udp_port : Option String := none
  protocol : Option String := none
  deriving Repr, DecidableEq

/-- The scanning loop of `_parse_service_entry` over `entry_lines[1:]`. -/
def scanServiceLines (ls : List String) : SvcScan :=
  ls.foldl (fun st line =>
    if strStartsWith line "set tcp-portrange" then
      { st with tcp_port := some (getSetValue line) }
    else if strStartsWith line "set udp-portrange" then
      { st with udp_port := some (getSetValue line) }
    else if strStartsWith line "set protocol ICMP" then { st with protocol := some "icmp" }
    else st) {}

/-- `f"eq {p}" if '-' not in p else f"range {p.replace('-', ' ')}"`. -/
def fortinetPortStr (p : String) : String :=
  if strHasChar p '-' then "range " ++ strReplace p "-" " " else "eq " ++ p

/-- `re.match(r'^\d+$', name)`. -/
def isAllDigits (s : String) : Bool :=
  s ≠ "" && s.data.all Char.isDigit

/-- `FortinetParser._parse_service_entry`: returns the updated
configuration and `split_services_map`.  A service with both a TCP and a
UDP port range is split into `TCP-<base>`/`UDP-<base>` plus the group
`TCP-UDP_<base>`; otherwise a purely numeric cleaned name is prefixed by
its protocol, and a renamed service records a singleton rewrite. -/
def parseServiceEntry (entryLines : List String) (cfg : FirewallConfig)
    (splitMap : List (String × List String)) :
    FirewallConfig × List (String × List String) :=
  let name := getEditValue (entryLines.headD "")
  let svc := scanServiceLines entryLines.tail
  let base := cleanServiceName name
  if optTruthy svc.tcp_port && optTruthy svc.udp_port then
    let tcpName := "TCP-" ++ base
    let udpName := "UDP-" ++ base
    let groupName := "TCP-UDP_" ++ base
    let tcpSvc : Service := ⟨tcpName, "tcp", fortinetPortStr (svc.tcp_port.getD "")⟩
    let udpSvc : Service := ⟨udpName, "udp", fortinetPortStr (svc.udp_port.getD "")⟩
    ({ cfg with
       services := cfg.services ++ [tcpSvc, udpSvc],
       service_groups := cfg.service_groups ++ [⟨groupName, [tcpName, udpName]⟩] },
     splitMap ++ [(name, [groupName])])
  else
    let final :=
      if isAllDigits base then
        if optTruthy svc.tcp_port then "TCP-" ++ base
        else if optTruthy svc.udp_port then "UDP-" ++ base
        else if svc.protocol == some "icmp" then "ICMP-" ++ base
        else base
      else base
    let splitMap2 := if final ≠ name then splitMap ++ [(name, [final])] else splitMap
    if optTruthy svc.tcp_port then
      ({ cfg with services := cfg.services ++
          [⟨final, "tcp", fortinetPortStr (svc.tcp_port.getD "")⟩] }, splitMap2)
    else if optTruthy svc.udp_port then
      ({ cfg with services := cfg.services ++
          [⟨final, "udp", fortinetPortStr (svc.udp_port.getD "")⟩] }, splitMap2)
    else if svc.protocol == some "icmp" then
      ({ cfg with services := cfg.services ++ [⟨final, "icmp", ""⟩] }, splitMap2)
    else (cfg, splitMap2)

/-- One member step of the reference rewrite in `_update_references`. -/
def rewriteStep (splitMap : List (String × List String)) (acc : List String)
    (m : String) : List String :=
  match (splitMap.find? (fun p => p.1 == m)).map (fun p => p.2) with
  | some repl => repl.foldl setInsert acc
  | none => setInsert acc m

/-- Rewrite of one reference set in `_update_references`: every member that
the split map knows is replaced by the mapped list, everything else kept
(a Python set update; insertion order kept here, membership identical). -/
def rewriteRefs (splitMap : List (String × List String)) (members : List String) :
    List String :=
  members.foldl (rewriteStep splitMap) []

/-- `FortinetParser._update_references`: apply the split-services rewrite
map to every service group, rule service set and NAT original-service set
(a no-op when the map is empty). -/
def updateReferences (splitMap : List (String × List String)) (cfg : FirewallConfig) :
    FirewallConfig :=
  if splitMap.isEmpty then cfg
  else
    { cfg with
      service_groups := cfg.service_groups.map fun g =>
        { g with members := rewriteRefs splitMap g.members },
      rules := cfg.rules.map fun r => { r with service := rewriteRefs splitMap r.service },
      nat_rules := cfg.nat_rules.map fun n =>
        { n with original_service := rewriteRefs splitMap n.original_service } }

/-- The working state `_parse_policy_entry` accumulates over
`entry_lines[1:]`. -/
structure PolicyScan where
  name : String
  action : String := "deny"
  enabled : Bool := true
  remark : Option String := none
  source_interface : List String := []
  destination_interface : List String := []
  source : List String := []
  destination : List String := []
  service : List String := []
  natEnabled : Bool := false
  poolName : Option String := none
  deriving Repr, DecidableEq

/-- The scanning loop of `_parse_policy_entry` (the `startswith` chain),
with `set`-valued fields accumulated via set update. -/
def scanPolicyLines (ls : List String) (init : PolicyScan) : PolicyScan :=
  ls.foldl (fun st line =>
    if strStartsWith line "set name" then { st with name := getSetValue line }
    else if strStartsWith line "set srcintf" then
      { st with source_interface :=
          (extractMultiValues line).foldl setInsert st.source_interface }
    else if strStartsWith line "set dstintf" then
      { st with destination_interface :=
          (extractMultiValues line).foldl setInsert st.destination_interface }
    else if strStartsWith line "set srcaddr" then
      { st with source := (extractMultiValues line).foldl setInsert st.source }
    else if strStartsWith line "set dstaddr" then
      { st with destination := (extractMultiValues line).foldl setInsert st.destination }
    else if strStartsWith line "set service" then
      { st with service := (extractMultiValues line).foldl setInsert st.service }
    else if strStartsWith line "set action" then
      { st with action := if getSetValue line == "accept" then "allow" else "deny" }
    else if strStartsWith line "set status" then
      { st with enabled := getSetValue line == "enable" }
    else if strStartsWith line "set comments" then
      { st with remark := some (getSetValue line) }
    else if strStartsWith line "set nat enable" then { st with natEnabled := true }
    else if strStartsWith line "set poolname" then
      { st with poolName := some (getSetValue line) }
    else st) init

/-- The scanned policy entry with the `all`/`ALL` defaults applied to
empty source, destination and service sets. -/
def policyScanOf (entryLines : List String) : PolicyScan :=
  let seqName := "Rule_" ++ getEditValue (entryLines.headD "")
  let st := scanPolicyLines entryLines.tail { name := seqName }
  { st with
    source := if st.source.isEmpty then ["all"] else st.source,
    destination := if st.destination.isEmpty then ["all"] else st.destination,
    service := if st.service.isEmpty then ["ALL"] else st.service }

/-- `FortinetParser._parse_policy_entry`: always appends one `Rule`, and
appends the companion `NatRule` only when NAT is enabled AND a (truthy)
pool name was set. -/
def parsePolicyEntry (entryLines : List String) (cfg : FirewallConfig)
    (sequenceId : Nat) : FirewallConfig :=
  let st := policyScanOf entryLines
  let rule : Rule :=
    { sequence_id := sequenceId, name := st.name, action := st.action,
      remark := st.remark, enabled := st.enabled,
      source_interface := st.source_interface,
      destination_interface := st.destination_interface,
      source := st.source, destination := st.destination, service := st.service }
  let cfg1 := { cfg with rules := cfg.rules ++ [rule] }
  if st.natEnabled && optTruthy st.poolName then
    { cfg1 with nat_rules := cfg1.nat_rules ++
        [{ sequence_id := sequenceId, name := "NAT_" ++ st.name,
           original_source := st.source, translated_source := st.poolName,
           original_destination := st.destination, original_service := st.service,
           source_interface := st.source_interface,
           destination_interface := st.destination_interface,
           enabled := st.enabled, remark := st.remark }] }
  else cfg1

/-! ## Cisco ASA parser (parsers/cisco_asa_parser.py) -/

/-- `CiscoAsaParser._get_new_name`: context-suffix a duplicated name.
`_split_into_contexts` puts everything in the `default` context, so the
suffix branch is inert in practice but kept for fidelity. -/
def getNewName (name context : String) (duplicates : List String) : String :=
  if duplicates.contains name && context ≠ "default" then name ++ "_" ++ context
  else name

/-- The `_RE_MANUAL_STATIC_NAT` branch of
`CiscoAsaParser._parse_nat_rule_line` (lines 604-625), given the regex
captures of a matched `nat (src,dst) … source static A B [unidirectional]`
line (the twice-NAT regex, tried first, cannot match such a line because
it requires a literal `destination static` clause).  Returns the updated
configuration and NAT sequence counter. -/
def parseManualStaticNat (srcIntf dstIntf origSrc mappedSrcRaw : String)
    (uni : Bool) (isEnabled : Bool) (context : String) (duplicates : List String)
    (cfg : FirewallConfig) (ctr : Nat) : FirewallConfig × Nat :=
  let mappedSrc := strTrim mappedSrcRaw
  let fwd : NatRule :=
    { sequence_id := ctr, name := "StaticNAT_" ++ origSrc,
      source_interface := [strTrim srcIntf], destination_interface := [strTrim dstIntf],
      original_source := [getNewName origSrc context duplicates],
      translated_source := some (getNewName mappedSrc context duplicates),
      enabled := isEnabled }
  if uni then ({ cfg with nat_rules := cfg.nat_rules ++ [fwd] }, ctr + 1)
  else
    let rev : NatRule :=
      { sequence_id := ctr + 1, name := "StaticNAT_Reverse_" ++ origSrc,
        source_interface := [strTrim dstIntf], destination_interface := [strTrim srcIntf],
        original_destination := [getNewName mappedSrc context duplicates],
        translated_destination := some (getNewName origSrc context duplicates),
        enabled := isEnabled }
    ({ cfg with nat_rules := cfg.nat_rules ++ [fwd, rev] }, ctr + 2)

/-! ## Spec-side predicates

These two definitions follow the wording of the claims they serve (not the
source code); they exist to state refutations of those claims precisely. -/

/-- Follows claim C3's wording: rule j's field is a subset of rule i's
field — subset in the usual sense, so the empty set is a subset of
everything — with `any`/`all` appearing in rule i's field making it
universal (case-insensitively, matching the claim's intent). -/
def claimSubsetUniversal (specific broader : List String) : Bool :=
  (broader.map pyLower).contains "any" || (broader.map pyLower).contains "all" ||
    (specific.map pyLower).all (fun x => (broader.map pyLower).contains x)

/-- Follows claim C9's wording: the field is "either empty or contained in
{any, all} (case-insensitive)" — every member is the literal `any` or
`all`. -/
def claimFieldOnlyAnyAll (l : List String) : Bool :=
  l.isEmpty || l.all (fun s => pyLower s == "any" || pyLower s == "all")

/-! ## Shared concrete inputs -/

/-- Host address named A. -/
def addrA : Address := { name := "A", type := "host", value1 := "10.0.0.1" }

/-- Host address named B. -/
def addrB : Address := { name := "B", type := "host", value1 := "10.0.0.2" }

/-- Configuration with a single canonicalizable custom service referenced
by one rule. -/
def cfgC2 : FirewallConfig :=
  { services := [{ name := "web", protocol := "tcp", port := "eq 80" }],
    rules := [{ sequence_id := 1, name := "r", action := "allow", service := ["web"] }] }

/-- One allow rule with logging off and a remark: its only security risk is
one medium no-logging finding, so the sub-scores are 100/95/100. -/
def cfgC4 : FirewallConfig :=
  { rules := [{ sequence_id := 1, name := "r1", action := "allow", remark := some "x",
                source := ["a"], destination := ["b"], service := ["http"] }] }

/-- Earlier rule of the C3 counterexample: allow from `{a}` to anywhere,
any service. -/
def ruleC3i : Rule :=
  { sequence_id := 1, name := "I", action := "allow", source := ["a"],
    destination := ["any"], service := ["any"] }

/-- Later rule of the C3 counterexample: allow with an empty source set —
mathematically a subset of every source set. -/
def ruleC3j : Rule :=
  { sequence_id := 2, name := "J", action := "allow", source := [],
    destination := ["x"], service := ["y"] }

/-- Broad earlier rule used to witness the amended C3 theorem. -/
def ruleC3wI : Rule :=
  { sequence_id := 1, name := "Iw", action := "allow", source := ["any"],
    destination := ["any"], service := ["any"] }

/-- Specific later rule used to witness the amended C3 theorem. -/
def ruleC3wJ : Rule :=
  { sequence_id := 2, name := "Jw", action := "allow", source := ["h1"],
    destination := ["h2"], service := ["web"] }

/-- C5 counterexample configuration: wildcard fqdn address `W`, host `X`,
and a NAT rule whose translated-destination `X` maps back to `W`. -/
def cfgC5 : FirewallConfig :=
  { addresses := [{ name := "W", type := "fqdn", value1 := "*.x.com" },
                  { name := "X", type := "host", value1 := "1.1.1.1" }],
    nat_rules := [{ sequence_id := 1, name := "n",
                    original_destination := ["W"],
                    translated_destination := some "X" }] }

/-- C5 counterexample rule: destination references both the wildcard `W`
and the DNAT-translated `X`. -/
def ruleC5 : Rule :=
  { sequence_id := 1, name := "r", action := "allow", destination := ["W", "X"] }

/-- C5 witness configuration: a lone wildcard fqdn address. -/
def cfgC5w : FirewallConfig :=
  { addresses := [{ name := "WildSite", type := "fqdn", value1 := "*.example.com" }] }

/-- C5 witness address. -/
def addrC5w : Address := { name := "WildSite", type := "fqdn", value1 := "*.example.com" }

/-- C5 witness rule referencing the wildcard address. -/
def ruleC5w : Rule :=
  { sequence_id := 1, name := "r", action := "allow", destination := ["WildSite"] }

/-- C6 counterexample configuration: the translated-destination name `W`
is itself a wildcard fqdn address. -/
def cfgC6 : FirewallConfig :=
  { addresses := [{ name := "W", type := "fqdn", value1 := "*.y.com" }],
    nat_rules := [{ sequence_id := 1, name := "n",
                    original_destination := ["Ext"],
                    translated_destination := some "W" }] }

/-- C6 counterexample rule: destination references the translated name. -/
def ruleC6 : Rule :=
  { sequence_id := 1, name := "r", action := "allow", destination := ["W"] }

/-- C6 witness configuration: DNAT from external `Ext` to internal
`WebSrv` (the spec's scenario 6). -/
def cfgC6w : FirewallConfig :=
  { addresses := [{ name := "Ext", type := "host", value1 := "203.0.113.5" },
                  { name := "WebSrv", type := "host", value1 := "10.0.0.5" }],
    nat_rules := [{ sequence_id := 1, name := "n",
                    original_destination := ["Ext"],
                    translated_destination := some "WebSrv" }] }

/-- C6 witness rule: destination references the internal server. -/
def ruleC6w : Rule :=
  { sequence_id := 1, name := "r", action := "allow", destination := ["WebSrv"] }

/-- C7 witness entry (the spec's scenario 4): a custom service with both a
TCP and a UDP port range. -/
def entC7 : List String :=
  ["edit \"DNS-ALT\"", "set tcp-portrange 5353", "set udp-portrange 5353"]

/-! ## Claim theorems -/

/-- Claim C1 (code_bug): the claim requires every generator to render
set-valued IR containers deterministically sorted (alphabetically), so
that equal inputs give byte-equal output.  `FortinetGenerator
._generate_addresses` iterates the address set in raw iteration order:
the same two-element address set, enumerated in its two possible orders,
yields two different output strings, and the `[B, A]` enumeration is not
alphabetical. -/
theorem fortinet_address_rendering_depends_on_set_iteration_order :
    ([addrB, addrA] : List Address).Perm [addrA, addrB] ∧
      fortinetGenerateAddresses [addrB, addrA] ≠ fortinetGenerateAddresses [addrA, addrB] := by
  decide

/-- Claim C2 (counterexample): running the Fortinet generator does not
leave the IR unchanged — service canonicalization removes the custom
service `web` from the configuration and rewrites the rule's service
reference to `HTTP`. -/
theorem fortinet_generate_mutates_ir :
    fortinetGenerateIRState cfgC2 ≠ cfgC2 ∧
      (fortinetGenerateIRState cfgC2).services = [] ∧
      (fortinetGenerateIRState cfgC2).rules.map Rule.service = [["HTTP"]] := by
  decide

/-- Membership in `setInsert` (adding to a Python set). -/
theorem mem_setInsert_c2 (l : List String) (x y : String) :
    y ∈ setInsert l x ↔ y ∈ l ∨ y = x := by
  unfold setInsert
  by_cases h : l.contains x = true
  · rw [if_pos h]
    constructor
    · exact Or.inl
    · rintro (hy | rfl)
      · exact hy
      · exact List.elem_iff.mp h
  · rw [if_neg h]
    rw [List.mem_append, List.mem_singleton]

/-- Membership through the fold of `replace_in_collection`, with an
arbitrary accumulator: exactly the replacement-map images of the input
items. -/
theorem mem_foldl_replaceInCollection (rm : List (String × String)) (col : List String) :
    ∀ (acc : List String) (x : String),
      x ∈ col.foldl (fun acc item =>
        match dictFind? rm item with
        | some v => setInsert acc v
        | none => setInsert acc item) acc ↔
      x ∈ acc ∨ ∃ y ∈ col, (dictFind? rm y).getD y = x := by
  induction col with
  | nil => intro acc x; simp
  | cons c cs ih =>
    intro acc x
    rw [List.foldl_cons]
    have hstep : (match dictFind? rm c with
        | some v => setInsert acc v
        | none => setInsert acc c) = setInsert acc ((dictFind? rm c).getD c) := by
      cases dictFind? rm c <;> rfl
    rw [hstep, ih, mem_setInsert_c2]
    constructor
    · rintro ((hacc | hx) | ⟨y, hy, hyx⟩)
      · exact Or.inl hacc
      · exact Or.inr ⟨c, List.mem_cons_self c cs, hx.symm⟩
      · exact Or.inr ⟨y, List.mem_cons_of_mem c hy, hyx⟩
    · rintro (hacc | ⟨y, hy, hyx⟩)
      · exact Or.inl (Or.inl hacc)
      · rcases List.mem_cons.mp hy with rfl | hyt
        · exact Or.inl (Or.inr hyx.symm)
        · exact Or.inr ⟨y, hyt, hyx⟩

/-- Membership in `replace_in_collection`: an element is in the result
iff it is the replacement-map image of some element of the input
collection (the image of an unmapped name is the name itself). -/
theorem mem_replaceInCollection (rm : List (String × String)) (col : List String) (x : String) :
    x ∈ replaceInCollection rm col ↔ ∃ y ∈ col, (dictFind? rm y).getD y = x := by
  unfold replaceInCollection
  rw [mem_foldl_replaceInCollection]
  simp

/-- Claim C2 (amended): the Fortinet generator's only IR mutation is
service canonicalization — addresses and address groups are untouched;
rules keep every field except `service`, NAT rules every field except
`original_service` and `translated_service`, service groups every field
except `members`; each of those four reference collections is replaced
by its image under the custom-service-to-default replacement map (a set
member maps to its replacement when its name is in the map and to
itself otherwise; a truthy `translated_service` maps pointwise the same
way); and the surviving services are exactly the original ones whose
name did not enter the replacement map. -/
theorem fortinet_generate_ir_mutation_is_service_canonicalization
    (cfg : FirewallConfig) :
    (fortinetGenerateIRState cfg).addresses = cfg.addresses ∧
    (fortinetGenerateIRState cfg).address_groups = cfg.address_groups ∧
    (fortinetGenerateIRState cfg).rules.map (fun r => { r with service := [] }) =
      cfg.rules.map (fun r => { r with service := [] }) ∧
    (fortinetGenerateIRState cfg).nat_rules.map
        (fun n => { n with original_service := [], translated_service := none }) =
      cfg.nat_rules.map
        (fun n => { n with original_service := [], translated_service := none }) ∧
    (fortinetGenerateIRState cfg).service_groups.map (fun g => { g with members := [] }) =
      cfg.service_groups.map (fun g => { g with members := [] }) ∧
    (∀ (i : Nat) (x : String),
      (∃ r, (fortinetGenerateIRState cfg).rules[i]? = some r ∧ x ∈ r.service) ↔
      (∃ r, cfg.rules[i]? = some r ∧
        ∃ y ∈ r.service, (dictFind? (replacementMap cfg.services) y).getD y = x)) ∧
    (∀ (i : Nat) (x : String),
      (∃ n, (fortinetGenerateIRState cfg).nat_rules[i]? = some n ∧
        x ∈ n.original_service) ↔
      (∃ n, cfg.nat_rules[i]? = some n ∧
        ∃ y ∈ n.original_service, (dictFind? (replacementMap cfg.services) y).getD y = x)) ∧
    ((fortinetGenerateIRState cfg).nat_rules.map NatRule.translated_service =
      cfg.nat_rules.map (fun n => n.translated_service.map (fun ts =>
        if ts ≠ "" then (dictFind? (replacementMap cfg.services) ts).getD ts else ts))) ∧
    (∀ (i : Nat) (x : String),
      (∃ g, (fortinetGenerateIRState cfg).service_groups[i]? = some g ∧ x ∈ g.members) ↔
      (∃ g, cfg.service_groups[i]? = some g ∧
        ∃ y ∈ g.members, (dictFind? (replacementMap cfg.services) y).getD y = x)) ∧
    (∀ s : Service, s ∈ (fortinetGenerateIRState cfg).services ↔
      s ∈ cfg.services ∧
        ((replacementMap cfg.services).map (fun p => p.1)).contains s.name = false) := by
  unfold fortinetGenerateIRState optimizeConfiguration
  by_cases h : (replacementMap cfg.services).isEmpty = true
  · have hnil : replacementMap cfg.services = [] := List.isEmpty_iff.mp h
    rw [if_pos h, hnil]
    refine ⟨rfl, rfl, rfl, rfl, rfl, ?_, ?_, ?_, ?_, ?_⟩
    · intro i x
      constructor
      · rintro ⟨r, hr, hx⟩
        exact ⟨r, hr, x, hx, rfl⟩
      · rintro ⟨r, hr, y, hy, hyx⟩
        have hyx2 : y = x := hyx
        exact ⟨r, hr, hyx2 ▸ hy⟩
    · intro i x
      constructor
      · rintro ⟨n, hn, hx⟩
        exact ⟨n, hn, x, hx, rfl⟩
      · rintro ⟨n, hn, y, hy, hyx⟩
        have hyx2 : y = x := hyx
        exact ⟨n, hn, hyx2 ▸ hy⟩
    · refine (List.map_congr_left ?_).symm
      intro n _
      cases n.translated_service with
      | none => rfl
      | some ts =>
        show some (if ts ≠ "" then (dictFind? [] ts).getD ts else ts) = some ts
        rw [show (dictFind? ([] : List (String × String)) ts).getD ts = ts from rfl, ite_self]
    · intro i x
      constructor
      · rintro ⟨g, hg, hx⟩
        exact ⟨g, hg, x, hx, rfl⟩
      · rintro ⟨g, hg, y, hy, hyx⟩
        have hyx2 : y = x := hyx
        exact ⟨g, hg, hyx2 ▸ hy⟩
    · intro s
      constructor
      · intro hs
        exact ⟨hs, rfl⟩
      · exact fun hh => hh.1
  · rw [if_neg h]
    refine ⟨rfl, rfl, ?_, ?_, ?_, ?_, ?_, ?_, ?_, ?_⟩
    · rw [List.map_map]; rfl
    · rw [List.map_map]; rfl
    · rw [List.map_map]; rfl
    · intro i x
      rw [List.getElem?_map]
      cases hr : cfg.rules[i]? with
      | none => simp
      | some r =>
        simp only [Option.map_some']
        constructor
        · rintro ⟨r2, hr2, hx⟩
          rw [← Option.some.inj hr2] at hx
          exact ⟨r, rfl, (mem_replaceInCollection _ _ _).mp hx⟩
        · rintro ⟨r2, hr2, hmem⟩
          cases Option.some.inj hr2
          exact ⟨_, rfl, (mem_replaceInCollection _ _ _).mpr hmem⟩
    · intro i x
      rw [List.getElem?_map]
      cases hn : cfg.nat_rules[i]? with
      | none => simp
      | some n =>
        simp only [Option.map_some']
        constructor
        · rintro ⟨n2, hn2, hx⟩
          rw [← Option.some.inj hn2] at hx
          exact ⟨n, rfl, (mem_replaceInCollection _ _ _).mp hx⟩
        · rintro ⟨n2, hn2, hmem⟩
          cases Option.some.inj hn2
          exact ⟨_, rfl, (mem_replaceInCollection _ _ _).mpr hmem⟩
    · rw [List.map_map]
      refine List.map_congr_left ?_
      intro n _
      show replaceTranslatedService (replacementMap cfg.services) n.translated_service =
        n.translated_service.map (fun ts =>
          if ts ≠ "" then (dictFind? (replacementMap cfg.services) ts).getD ts else ts)
      cases n.translated_service with
      | none => rfl
      | some ts =>
        simp only [replaceTranslatedService, Option.map_some']
        by_cases hts : ts = ""
        · rw [if_neg (fun hne => hne hts), if_neg (fun hne => hne hts)]
        · rw [if_pos hts, if_pos hts]
          cases hd : dictFind? (replacementMap cfg.services) ts <;> rfl
    · intro i x
      rw [List.getElem?_map]
      cases hg : cfg.service_groups[i]? with
      | none => simp
      | some g =>
        simp only [Option.map_some']
        constructor
        · rintro ⟨g2, hg2, hx⟩
          rw [← Option.some.inj hg2] at hx
          exact ⟨g, rfl, (mem_replaceInCollection _ _ _).mp hx⟩
        · rintro ⟨g2, hg2, hmem⟩
          cases Option.some.inj hg2
          exact ⟨_, rfl, (mem_replaceInCollection _ _ _).mpr hmem⟩
    · intro s
      rw [List.mem_filter, Bool.not_eq_true']

/-- Weighted quarter-half-quarter sum of naturals has the floor given by
natural division by four. -/
theorem floor_weighted_quarter_sum (a b c : Nat) :
    ⌊(1 / 4 : ℚ) * a + (1 / 2 : ℚ) * b + (1 / 4 : ℚ) * c⌋ = ((a + 2 * b + c) / 4 : Nat) := by
  have h : (1 / 4 : ℚ) * a + (1 / 2 : ℚ) * b + (1 / 4 : ℚ) * c =
      ((a + 2 * b + c : ℕ) : ℚ) / ((4 : ℕ) : ℚ) := by
    push_cast
    ring
  rw [h, Rat.floor_natCast_div_natCast]
  exact (Int.ofNat_tdiv _ _).symm

/-- Claim C4 (counterexample): on a configuration whose sub-scores are
100/95/100, the analyzer's overall score is `int(97.5) = 97`, while the
claim's round-to-nearest formula gives 98. -/
theorem overall_score_truncates_not_rounds :
    ((analyzeScores cfgC4).overall_score : ℤ) ≠
      round ((1 / 4 : ℚ) * (analyzeScores cfgC4).optimization_score +
        (1 / 2 : ℚ) * (analyzeScores cfgC4).security_score +
        (1 / 4 : ℚ) * (analyzeScores cfgC4).complexity_score) := by
  have h : analyzeScores cfgC4 = ⟨100, 95, 100, 97⟩ := by decide
  rw [h]
  norm_num [round_eq]

/-- Claim C4 (amended): the three sub-scores are clamped to [0, 100] and
the overall score is the floor (truncation, not rounding to nearest) of
`0.25·optimization + 0.50·security + 0.25·complexity`. -/
theorem overall_score_is_floor_of_weighted_sum (cfg : FirewallConfig) :
    (analyzeScores cfg).optimization_score ≤ 100 ∧
    (analyzeScores cfg).security_score ≤ 100 ∧
    (analyzeScores cfg).complexity_score ≤ 100 ∧
    ((analyzeScores cfg).overall_score : ℤ) =
      ⌊(1 / 4 : ℚ) * (analyzeScores cfg).optimization_score +
        (1 / 2 : ℚ) * (analyzeScores cfg).security_score +
        (1 / 4 : ℚ) * (analyzeScores cfg).complexity_score⌋ := by
  refine ⟨Nat.min_le_left _ _, Nat.min_le_left _ _, Nat.min_le_left _ _, ?_⟩
  rw [floor_weighted_quarter_sum]
  rfl

/-- Claim C8 (confirmed): a manual static NAT line without
`unidirectional` appends exactly the forward rule (original-source `{A}`,
translated-source `B`) and the synthetic reverse rule (original-destination
`{B}`, translated-destination `A`, interfaces swapped); with
`unidirectional` only the forward rule is appended, and nothing else in
the configuration changes. -/
theorem manual_static_nat_appends_forward_and_reverse
    (srcIntf dstIntf origSrc mappedSrcRaw : String) (uni isEnabled : Bool)
    (context : String) (duplicates : List String) (cfg : FirewallConfig) (ctr : Nat) :
    (parseManualStaticNat srcIntf dstIntf origSrc mappedSrcRaw uni isEnabled context
        duplicates cfg ctr).1.nat_rules =
      cfg.nat_rules ++
        (if uni then
          [{ sequence_id := ctr, name := "StaticNAT_" ++ origSrc,
             source_interface := [strTrim srcIntf],
             destination_interface := [strTrim dstIntf],
             original_source := [getNewName origSrc context duplicates],
             translated_source :=
               some (getNewName (strTrim mappedSrcRaw) context duplicates),
             enabled := isEnabled }]
        else
          [{ sequence_id := ctr, name := "StaticNAT_" ++ origSrc,
             source_interface := [strTrim srcIntf],
             destination_interface := [strTrim dstIntf],
             original_source := [getNewName origSrc context duplicates],
             translated_source :=
               some (getNewName (strTrim mappedSrcRaw) context duplicates),
             enabled := isEnabled },
           { sequence_id := ctr + 1, name := "StaticNAT_Reverse_" ++ origSrc,
             source_interface := [strTrim dstIntf],
             destination_interface := [strTrim srcIntf],
             original_destination := [getNewName (strTrim mappedSrcRaw) context duplicates],
             translated_destination := some (getNewName origSrc context duplicates),
             enabled := isEnabled }]) ∧
    (parseManualStaticNat srcIntf dstIntf origSrc mappedSrcRaw uni isEnabled context
        duplicates cfg ctr).2 = ctr + (if uni then 1 else 2) ∧
    (parseManualStaticNat srcIntf dstIntf origSrc mappedSrcRaw uni isEnabled context
        duplicates cfg ctr).1.rules = cfg.rules ∧
    (parseManualStaticNat srcIntf dstIntf origSrc mappedSrcRaw uni isEnabled context
        duplicates cfg ctr).1.nat_rules.length =
      cfg.nat_rules.length + (if uni then 1 else 2) := by
  cases uni <;> exact ⟨rfl, rfl, rfl, by simp [parseManualStaticNat]⟩

/-- Claim C3 (counterexample): rule J has an empty source set, which is a
subset of rule I's source in the claim's sense, rule I's destination and
service are universal (`any`) and the actions match, so the claim demands
an OverlappingRule entry — but the analyzer reports none, because
`_is_subset_or_any` rejects an empty specific set unless the broader side
is universal. -/
theorem shadow_claim_fails_on_empty_source :
    findOverlappingRules [ruleC3i, ruleC3j] = [] ∧
    ruleC3i.action = ruleC3j.action ∧
    claimSubsetUniversal ruleC3j.source ruleC3i.source = true ∧
    claimSubsetUniversal ruleC3j.destination ruleC3i.destination = true ∧
    claimSubsetUniversal ruleC3j.service ruleC3i.service = true := by
  decide

/-- Claim C3 (amended): for rules at positions `i < j`, the analyzer
reports an OverlappingRule entry marking rule j as shadowed by rule i if
and only if the actions are equal and, for each of source, destination and
service, rule i's set contains `any`/`all` (case-insensitively) or rule
j's set is non-empty and its lowercased members are all among rule i's
lowercased members (`isSubsetOrAny`); the claim's plain-subset reading
fails only on the empty-set edge, which the code does not treat as a
subset. -/
theorem overlap_reported_iff_shadowing
    (rules : List Rule) (i j : Nat) (ri rj : Rule)
    (hi : rules[i]? = some ri) (hj : rules[j]? = some rj) (hij : i < j) :
    ((findOverlappingRules rules).any
        (fun o => o.shadowed_by_id == i + 1 && o.rule_id == j + 1)) = true ↔
      (ri.action = rj.action ∧
        isSubsetOrAny rj.source ri.source = true ∧
        isSubsetOrAny rj.destination ri.destination = true ∧
        isSubsetOrAny rj.service ri.service = true) := by
  constructor
  · intro h
    rw [List.any_eq_true] at h
    obtain ⟨o, ho, hpred⟩ := h
    unfold findOverlappingRules at ho
    rw [List.mem_flatMap] at ho
    obtain ⟨p1, hp1, ho2⟩ := ho
    rw [List.mem_filterMap] at ho2
    obtain ⟨p2, hp2, hcond⟩ := ho2
    split at hcond
    case isFalse => exact Option.noConfusion hcond
    case isTrue hc =>
      cases hcond
      rw [Bool.and_eq_true] at hpred
      have hp1i : p1.1 = i := by
        have h1 : p1.1 + 1 = i + 1 := beq_iff_eq.mp hpred.1
        omega
      have hp2j : p2.1 = j := by
        have h2 : p2.1 + 1 = j + 1 := beq_iff_eq.mp hpred.2
        omega
      rw [List.mem_enum_iff_getElem?] at hp1 hp2
      rw [hp1i] at hp1
      rw [hp2j] at hp2
      rw [hi] at hp1
      rw [hj] at hp2
      have hri : p1.2 = ri := (Option.some.inj hp1).symm
      have hrj : p2.2 = rj := (Option.some.inj hp2).symm
      rw [Bool.and_eq_true] at hc
      have hsh := hc.2
      rw [hri, hrj] at hsh
      unfold isShadowing at hsh
      rw [Bool.and_eq_true, Bool.and_eq_true, Bool.and_eq_true] at hsh
      exact ⟨beq_iff_eq.mp hsh.1.1.1, hsh.1.1.2, hsh.1.2, hsh.2⟩
  · rintro ⟨ha, hs, hd, hsv⟩
    rw [List.any_eq_true]
    have hsh : isShadowing ri rj = true := by
      unfold isShadowing
      rw [hs, hd, hsv, ha]
      simp
    refine ⟨{ rule_name := rj.name, rule_id := j + 1,
              shadowed_by := ri.name, shadowed_by_id := i + 1 }, ?_, by simp⟩
    unfold findOverlappingRules
    rw [List.mem_flatMap]
    refine ⟨(i, ri), List.mem_enum_iff_getElem?.mpr hi, ?_⟩
    rw [List.mem_filterMap]
    refine ⟨(j, rj), List.mem_enum_iff_getElem?.mpr hj, ?_⟩
    have hcond : (decide (i < j) && isShadowing ri rj) = true := by
      rw [decide_eq_true hij, hsh]
      rfl
    rw [if_pos hcond]

/-- Witness for the amended C3 theorem: on a concrete pair where the
earlier rule is universal, the overlap entry is reported. -/
theorem overlap_reported_iff_shadowing_witness :
    ((findOverlappingRules [ruleC3wI, ruleC3wJ]).any
        (fun o => o.shadowed_by_id == 0 + 1 && o.rule_id == 1 + 1)) = true :=
  (overlap_reported_iff_shadowing [ruleC3wI, ruleC3wJ] 0 1 ruleC3wI ruleC3wJ rfl rfl
    (by decide)).mpr (by decide)

/-- The any-any-any pass of `_find_security_risks` survives the critical
filter as one entry per qualifying rule, in rule order. -/
theorem critFilter_anyAnyAny (rules : List Rule) :
    ((rules.filterMap fun r =>
        if isAnyAnyAny r then some (⟨"critical", "any-any-any", r.name⟩ : SecurityRisk)
        else none).filter (fun k => k.severity == "critical")) =
      (rules.filter isAnyAnyAny).map
        (fun r => (⟨"critical", "any-any-any", r.name⟩ : SecurityRisk)) := by
  induction rules with
  | nil => rfl
  | cons r rs ih =>
    by_cases h : isAnyAnyAny r = true
    · simp [List.filterMap_cons, h, List.filter_cons, ih]
    · simp [List.filterMap_cons, h, List.filter_cons, ih]

/-- A risk pass that never produces critical severity contributes nothing
to the critical filter. -/
theorem filter_crit_nil_of (rules : List Rule) (f : Rule → Option SecurityRisk)
    (h : ∀ r k, f r = some k → k.severity ≠ "critical") :
    ((rules.filterMap f).filter (fun k => k.severity == "critical")) = [] := by
  induction rules with
  | nil => rfl
  | cons r rs ih =>
    rw [List.filterMap_cons]
    cases hf : f r with
    | none => exact ih
    | some k =>
      rw [List.filter_cons]
      have hk : (k.severity == "critical") = false := by
        have := h r k hf
        simp [this]
      rw [hk]
      simpa using ih

/-- Claim C9 (counterexample): the rule `R9` has source `{any, x}` — not
empty and not contained in `{any, all}` — so by the claim it must receive
no critical risk; the analyzer nevertheless reports exactly one critical
any-any-any risk for it, because the code only asks whether `any`/`all`
is a member of each field. -/
theorem critical_risk_claim_fails_on_mixed_any_source :
    claimFieldOnlyAnyAll
        ["any", "x"] = false ∧
    (findSecurityRisks
        [{ sequence_id := 1, name := "R9", action := "allow", remark := some "r",
           log := true, source := ["any", "x"], destination := ["any"],
           service := ["any"] }]).filter (fun k => k.severity == "critical") =
      [⟨"critical", "any-any-any", "R9"⟩] := by
  decide

/-- Claim C9 (amended): the critical risks the analyzer reports are
exactly one `any-any-any` entry per rule whose action is allow-like
(allow/permit/accept, case-insensitively) and whose source, destination
and service are each empty or contain `any` or `all` (case-insensitively)
— the condition `isAnyAnyAny` — in rule order; every other rule
contributes no critical risk. -/
theorem critical_risks_are_exactly_any_any_any_rules (rules : List Rule) :
    (findSecurityRisks rules).filter (fun k => k.severity == "critical") =
      (rules.filter isAnyAnyAny).map
        (fun r => ⟨"critical", "any-any-any", r.name⟩) := by
  unfold findSecurityRisks
  rw [List.filter_append, List.filter_append, List.filter_append, List.filter_append]
  rw [critFilter_anyAnyAny]
  rw [filter_crit_nil_of _ _ (by
    intro r k hf
    split at hf
    · cases hf; simp
    · exact Option.noConfusion hf)]
  rw [filter_crit_nil_of _ _ (by
    intro r k hf
    split at hf
    · cases hf; simp
    · exact Option.noConfusion hf)]
  rw [filter_crit_nil_of _ _ (by
    intro r k hf
    split at hf
    · cases hf; simp
    · exact Option.noConfusion hf)]
  rw [filter_crit_nil_of _ _ (by
    intro r k hf
    split at hf
    · cases hf; simp
    · exact Option.noConfusion hf)]
  simp

/-- Claim C10 (counterexample): a Fortinet policy entry with
`set nat enable` but no `set poolname` parses into one `Rule` and no
`NatRule`, contradicting "regardless of whether a poolname is also set". -/
theorem policy_nat_enable_without_poolname_emits_no_natrule :
    (policyScanOf
        ["edit 1", "set srcaddr \"a\"", "set action accept", "set nat enable"]).natEnabled
      = true ∧
    (policyScanOf
        ["edit 1", "set srcaddr \"a\"", "set action accept", "set nat enable"]).poolName
      = none ∧
    (parsePolicyEntry
        ["edit 1", "set srcaddr \"a\"", "set action accept", "set nat enable"] {} 1).rules.length
      = 1 ∧
    (parsePolicyEntry
        ["edit 1", "set srcaddr \"a\"", "set action accept", "set nat enable"] {} 1).nat_rules
      = [] := by
  decide

/-- Claim C10 (amended): `_parse_policy_entry` always appends exactly one
`Rule`; it appends a companion `NatRule` exactly when NAT is enabled AND a
(non-empty) pool name is set, and any NAT rule it adds carries the
policy's source as original-source and the pool name as
translated-source. -/
theorem policy_nat_rule_requires_nat_enable_and_poolname
    (e : List String) (cfg : FirewallConfig) (s : Nat) :
    (parsePolicyEntry e cfg s).rules.length = cfg.rules.length + 1 ∧
    ((parsePolicyEntry e cfg s).nat_rules ≠ cfg.nat_rules ↔
      ((policyScanOf e).natEnabled && optTruthy (policyScanOf e).poolName) = true) ∧
    ((parsePolicyEntry e cfg s).nat_rules.all (fun n =>
      cfg.nat_rules.contains n ||
        (n.original_source == (policyScanOf e).source &&
          n.translated_source == (policyScanOf e).poolName))) = true := by
  simp only [parsePolicyEntry]
  by_cases h : ((policyScanOf e).natEnabled && optTruthy (policyScanOf e).poolName) = true
  · rw [if_pos h]
    refine ⟨by simp, ?_, ?_⟩
    · refine iff_of_true ?_ h
      intro heq
      simpa using congrArg List.length heq
    · rw [List.all_append, Bool.and_eq_true]
      refine ⟨?_, ?_⟩
      · rw [List.all_eq_true]
        intro n hn
        have hc : cfg.nat_rules.contains n = true := List.elem_iff.mpr hn
        rw [hc, Bool.true_or]
      · simp
  · rw [if_neg h]
    refine ⟨by simp, iff_of_false (fun hne => hne rfl) h, ?_⟩
    rw [List.all_eq_true]
    intro n hn
    have hn' : n ∈ cfg.nat_rules := hn
    have hc : cfg.nat_rules.contains n = true := List.elem_iff.mpr hn'
    rw [hc, Bool.true_or]

/-! ## Membership lemmas for the Python-set and dict models -/

/-- Membership after a set insert. -/
theorem mem_setInsert (l : List String) (x y : String) :
    y ∈ setInsert l x ↔ y ∈ l ∨ y = x := by
  unfold setInsert
  by_cases h : l.contains x = true
  · rw [if_pos h]
    constructor
    · exact Or.inl
    · rintro (hy | rfl)
      · exact hy
      · exact List.elem_iff.mp h
  · rw [if_neg h]
    rw [List.mem_append, List.mem_singleton]

/-- Membership after a sequence of set inserts. -/
theorem mem_foldl_setInsert (xs : List String) :
    ∀ (acc : List String) (y : String),
      y ∈ xs.foldl setInsert acc ↔ y ∈ acc ∨ y ∈ xs := by
  induction xs with
  | nil => intro acc y; simp
  | cons x xs ih =>
    intro acc y
    rw [List.foldl_cons, ih, mem_setInsert, List.mem_cons]
    tauto

/-- `dictUpsert` leaves the key list unchanged when the key is present and
appends it otherwise. -/
theorem dictUpsert_keys (d : List (String × String)) (k v : String) :
    (dictUpsert d k v).map (fun p => p.1) =
      if d.any (fun p => p.1 == k) then d.map (fun p => p.1)
      else d.map (fun p => p.1) ++ [k] := by
  unfold dictUpsert
  by_cases h : d.any (fun p => p.1 == k) = true
  · rw [if_pos h, if_pos h, List.map_map]
    refine List.map_congr_left ?_
    intro p _
    by_cases hk : (p.1 == k) = true
    · simp only [Function.comp_apply]
      rw [if_pos hk]
      exact (beq_iff_eq.mp hk).symm
    · simp only [Function.comp_apply]
      rw [if_neg hk]
  · rw [if_neg h, if_neg h, List.map_append]
    rfl

/-- Key membership after an upsert. -/
theorem mem_dictUpsert_keys (d : List (String × String)) (k v k2 : String) :
    k2 ∈ (dictUpsert d k v).map (fun p => p.1) ↔
      k2 ∈ d.map (fun p => p.1) ∨ k2 = k := by
  rw [dictUpsert_keys]
  by_cases ha : d.any (fun p => p.1 == k) = true
  · rw [if_pos ha]
    constructor
    · exact Or.inl
    · rintro (h | rfl)
      · exact h
      · rw [List.any_eq_true] at ha
        obtain ⟨p, hp, hpk⟩ := ha
        exact List.mem_map.mpr ⟨p, hp, beq_iff_eq.mp hpk⟩
  · rw [if_neg ha, List.mem_append, List.mem_singleton]

/-- The keys of an upserted dict stay without duplicates. -/
theorem nodup_dictUpsert_keys (d : List (String × String)) (k v : String)
    (h : (d.map (fun p => p.1)).Nodup) :
    ((dictUpsert d k v).map (fun p => p.1)).Nodup := by
  rw [dictUpsert_keys]
  by_cases ha : d.any (fun p => p.1 == k) = true
  · rw [if_pos ha]; exact h
  · rw [if_neg ha]
    have hk : k ∉ d.map (fun p => p.1) := by
      intro hm
      apply ha
      rw [List.any_eq_true]
      obtain ⟨p, hp, hpk⟩ := List.mem_map.mp hm
      exact ⟨p, hp, beq_iff_eq.mpr hpk⟩
    rw [List.nodup_append]
    refine ⟨h, List.nodup_singleton k, ?_⟩
    intro a ha1 ha2
    rw [List.mem_singleton] at ha2
    exact hk (ha2 ▸ ha1)

/-- A dict lookup succeeds exactly when the key is among the keys. -/
theorem dictFind_isSome_iff (d : List (String × String)) (k : String) :
    (dictFind? d k).isSome = true ↔ k ∈ d.map (fun p => p.1) := by
  unfold dictFind?
  cases hf : List.find? (fun p => p.1 == k) d with
  | none =>
    rw [List.find?_eq_none] at hf
    simp only [Option.map_none', Option.isSome_none, Bool.false_eq_true, false_iff]
    intro hm
    obtain ⟨p, hp, hpk⟩ := List.mem_map.mp hm
    exact hf p hp (beq_iff_eq.mpr hpk)
  | some p =>
    simp only [Option.map_some', Option.isSome_some, true_iff]
    have hmem := List.mem_of_find?_eq_some hf
    have hpk := List.find?_some hf
    exact List.mem_map.mpr ⟨p, hmem, beq_iff_eq.mp hpk⟩

/-! ## Destination-loop membership (C5, C6) -/

/-- `resolveDest` on a wildcard reference. -/
theorem resolveDest_of_wild {wild dmap : List (String × String)} {d : String}
    (h : (dictFind? wild (paSanitizeName d)).isSome = true) :
    resolveDest wild dmap d = none := by
  unfold resolveDest
  rw [if_pos h]

/-- `resolveDest` on a DNAT-translated reference. -/
theorem resolveDest_of_map {wild dmap : List (String × String)} {d v : String}
    (h : (dictFind? wild (paSanitizeName d)).isSome = false)
    (hm : dictFind? dmap d = some v) :
    resolveDest wild dmap d = some v := by
  unfold resolveDest
  rw [if_neg (by rw [h]; exact Bool.false_ne_true), hm]

/-- `resolveDest` on a plain reference. -/
theorem resolveDest_of_plain {wild dmap : List (String × String)} {d : String}
    (h : (dictFind? wild (paSanitizeName d)).isSome = false)
    (hm : dictFind? dmap d = none) :
    resolveDest wild dmap d = some d := by
  unfold resolveDest
  rw [if_neg (by rw [h]; exact Bool.false_ne_true), hm]

/-- Membership in the `final_destinations` component of the destination
fold, with an arbitrary accumulator. -/
theorem mem_paDestFold_fst (wild dmap : List (String × String)) (dest : List String) :
    ∀ (acc : List String × List String) (x : String),
      x ∈ (dest.foldl (paDestStep wild dmap) acc).1 ↔
        x ∈ acc.1 ∨ ∃ d ∈ dest, resolveDest wild dmap d = some x := by
  induction dest with
  | nil => intro acc x; simp
  | cons d ds ih =>
    intro acc x
    rw [List.foldl_cons, ih]
    by_cases hw : (dictFind? wild (paSanitizeName d)).isSome = true
    · have hstep : paDestStep wild dmap acc d = (acc.1, setInsert acc.2 (paSanitizeName d)) := by
        unfold paDestStep
        rw [if_pos hw]
      rw [hstep]
      constructor
      · rintro (hacc | ⟨d2, hd2, hr2⟩)
        · exact Or.inl hacc
        · exact Or.inr ⟨d2, List.mem_cons_of_mem d hd2, hr2⟩
      · rintro (hacc | ⟨d2, hd2, hr2⟩)
        · exact Or.inl hacc
        · rcases List.mem_cons.mp hd2 with rfl | hd2t
          · rw [resolveDest_of_wild hw] at hr2
            exact Option.noConfusion hr2
          · exact Or.inr ⟨d2, hd2t, hr2⟩
    · have hw' : (dictFind? wild (paSanitizeName d)).isSome = false :=
        Bool.not_eq_true _ ▸ hw
      cases hm : dictFind? dmap d with
      | some v =>
        have hstep : paDestStep wild dmap acc d = (setInsert acc.1 v, acc.2) := by
          unfold paDestStep
          rw [if_neg hw, hm]
        rw [hstep]
        simp only [mem_setInsert]
        constructor
        · rintro ((hacc | rfl) | ⟨d2, hd2, hr2⟩)
          · exact Or.inl hacc
          · exact Or.inr ⟨d, List.mem_cons_self d ds, resolveDest_of_map hw' hm⟩
          · exact Or.inr ⟨d2, List.mem_cons_of_mem d hd2, hr2⟩
        · rintro (hacc | ⟨d2, hd2, hr2⟩)
          · exact Or.inl (Or.inl hacc)
          · rcases List.mem_cons.mp hd2 with rfl | hd2t
            · rw [resolveDest_of_map hw' hm] at hr2
              exact Or.inl (Or.inr (Option.some.inj hr2).symm)
            · exact Or.inr ⟨d2, hd2t, hr2⟩
      | none =>
        have hstep : paDestStep wild dmap acc d = (setInsert acc.1 d, acc.2) := by
          unfold paDestStep
          rw [if_neg hw, hm]
        rw [hstep]
        simp only [mem_setInsert]
        constructor
        · rintro ((hacc | hxd) | ⟨d2, hd2, hr2⟩)
          · exact Or.inl hacc
          · exact Or.inr ⟨d, List.mem_cons_self d ds,
              by rw [hxd]; exact resolveDest_of_plain hw' hm⟩
          · exact Or.inr ⟨d2, List.mem_cons_of_mem d hd2, hr2⟩
        · rintro (hacc | ⟨d2, hd2, hr2⟩)
          · exact Or.inl (Or.inl hacc)
          · rcases List.mem_cons.mp hd2 with rfl | hd2t
            · rw [resolveDest_of_plain hw' hm] at hr2
              exact Or.inl (Or.inr (Option.some.inj hr2).symm)
            · exact Or.inr ⟨d2, hd2t, hr2⟩

/-- Membership in the `custom_url_categories` component of the destination
fold, with an arbitrary accumulator. -/
theorem mem_paDestFold_snd (wild dmap : List (String × String)) (dest : List String) :
    ∀ (acc : List String × List String) (x : String),
      x ∈ (dest.foldl (paDestStep wild dmap) acc).2 ↔
        x ∈ acc.2 ∨ ∃ d ∈ dest,
          (dictFind? wild (paSanitizeName d)).isSome = true ∧ paSanitizeName d = x := by
  induction dest with
  | nil => intro acc x; simp
  | cons d ds ih =>
    intro acc x
    rw [List.foldl_cons, ih]
    by_cases hw : (dictFind? wild (paSanitizeName d)).isSome = true
    · have hstep : paDestStep wild dmap acc d = (acc.1, setInsert acc.2 (paSanitizeName d)) := by
        unfold paDestStep
        rw [if_pos hw]
      rw [hstep]
      simp only [mem_setInsert]
      constructor
      · rintro ((hacc | rfl) | ⟨d2, hd2, hr2⟩)
        · exact Or.inl hacc
        · exact Or.inr ⟨d, List.mem_cons_self d ds, hw, rfl⟩
        · exact Or.inr ⟨d2, List.mem_cons_of_mem d hd2, hr2⟩
      · rintro (hacc | ⟨d2, hd2, hw2, hs2⟩)
        · exact Or.inl (Or.inl hacc)
        · rcases List.mem_cons.mp hd2 with rfl | hd2t
          · exact Or.inl (Or.inr hs2.symm)
          · exact Or.inr ⟨d2, hd2t, hw2, hs2⟩
    · cases hm : dictFind? dmap d with
      | some v =>
        have hstep : paDestStep wild dmap acc d = (setInsert acc.1 v, acc.2) := by
          unfold paDestStep
          rw [if_neg hw, hm]
        rw [hstep]
        constructor
        · rintro (hacc | ⟨d2, hd2, hr2⟩)
          · exact Or.inl hacc
          · exact Or.inr ⟨d2, List.mem_cons_of_mem d hd2, hr2⟩
        · rintro (hacc | ⟨d2, hd2, hw2, hs2⟩)
          · exact Or.inl hacc
          · rcases List.mem_cons.mp hd2 with rfl | hd2t
            · exact absurd hw2 hw
            · exact Or.inr ⟨d2, hd2t, hw2, hs2⟩
      | none =>
        have hstep : paDestStep wild dmap acc d = (setInsert acc.1 d, acc.2) := by
          unfold paDestStep
          rw [if_neg hw, hm]
        rw [hstep]
        constructor
        · rintro (hacc | ⟨d2, hd2, hr2⟩)
          · exact Or.inl hacc
          · exact Or.inr ⟨d2, List.mem_cons_of_mem d hd2, hr2⟩
        · rintro (hacc | ⟨d2, hd2, hw2, hs2⟩)
          · exact Or.inl hacc
          · rcases List.mem_cons.mp hd2 with rfl | hd2t
            · exact absurd hw2 hw
            · exact Or.inr ⟨d2, hd2t, hw2, hs2⟩

/-- Membership in a rule's final destinations. -/
theorem mem_paRuleFinalDests (cfg : FirewallConfig) (r : Rule) (x : String) :
    x ∈ paRuleFinalDests cfg r ↔
      ∃ d ∈ r.destination,
        resolveDest (wildcardFqdnMap cfg.addresses) (dnatReverseMap cfg.nat_rules) d =
          some x := by
  unfold paRuleFinalDests paDestAndCats
  rw [mem_paDestFold_fst]
  simp

/-- Membership in a rule's custom URL categories. -/
theorem mem_paRuleCategories (cfg : FirewallConfig) (r : Rule) (x : String) :
    x ∈ paRuleCategories cfg r ↔
      ∃ d ∈ r.destination,
        (dictFind? (wildcardFqdnMap cfg.addresses) (paSanitizeName d)).isSome = true ∧
          paSanitizeName d = x := by
  unfold paRuleCategories paDestAndCats
  rw [mem_paDestFold_snd]
  simp

/-- Claim C6 (counterexample): the NAT rule maps translated-destination
`W` back to original-destination `Ext`, and the security rule's
destination contains `W` — but because `W` is also a wildcard fqdn
address, the generator moves it to the category list and the emitted
destination is `any`: it does not contain `Ext`. -/
theorem dnat_claim_fails_on_wildcard_translated_destination :
    dictFind? (dnatReverseMap cfgC6.nat_rules) "W" = some "Ext" ∧
    "W" ∈ ruleC6.destination ∧
    paRuleFinalDests cfgC6 ruleC6 = [] ∧
    paRuleCategories cfgC6 ruleC6 = ["W"] ∧
    paDestMembersStr cfgC6 ruleC6 = "any" := by
  decide

/-- Claim C6 (amended): if a security rule's destination contains a name
`d` that the DNAT reverse map sends to `v` and `d` is not registered as a
wildcard fqdn, then `v` is among the emitted final destinations; and `d`
itself is dropped provided no destination member resolves to it. -/
theorem dnat_substitution_in_security_rule_destinations
    (cfg : FirewallConfig) (r : Rule) (d v : String)
    (hd : d ∈ r.destination)
    (hmap : dictFind? (dnatReverseMap cfg.nat_rules) d = some v)
    (hwild : dictFind? (wildcardFqdnMap cfg.addresses) (paSanitizeName d) = none) :
    v ∈ paRuleFinalDests cfg r ∧
      ((∀ d2 ∈ r.destination,
          resolveDest (wildcardFqdnMap cfg.addresses) (dnatReverseMap cfg.nat_rules) d2 ≠
            some d) →
        d ∉ paRuleFinalDests cfg r) := by
  have hres : resolveDest (wildcardFqdnMap cfg.addresses) (dnatReverseMap cfg.nat_rules) d =
      some v :=
    resolveDest_of_map (by rw [hwild]; rfl) hmap
  constructor
  · exact (mem_paRuleFinalDests cfg r v).mpr ⟨d, hd, hres⟩
  · intro hno hmem
    obtain ⟨d2, hd2, hres2⟩ := (mem_paRuleFinalDests cfg r d).mp hmem
    exact hno d2 hd2 hres2

/-- Witness for the amended C6 theorem: on the spec's scenario (external
`Ext` DNAT-translated to internal `WebSrv`, a rule whose destination is
`WebSrv`), the emitted destination contains `Ext`. -/
theorem dnat_substitution_witness : "Ext" ∈ paRuleFinalDests cfgC6w ruleC6w :=
  (dnat_substitution_in_security_rule_destinations cfgC6w ruleC6w "WebSrv" "Ext"
    (by decide) (by decide) (by decide)).1

/-! ## Wildcard map and NAT-pool lemmas (C5) -/

/-- Key membership through the wildcard-collection fold. -/
theorem wildcard_foldl_keys_mem (l : List Address) :
    ∀ (d : List (String × String)) (k : String),
      (k ∈ (l.foldl wildcardStep d).map (fun p => p.1)) ↔
        (k ∈ d.map (fun p => p.1) ∨
          ∃ a ∈ l, (a.type == "fqdn" && strStartsWith a.value1 "*") = true ∧
            paSanitizeName a.name = k) := by
  induction l with
  | nil => intro d k; simp
  | cons a l ih =>
    intro d k
    rw [List.foldl_cons, ih]
    by_cases h : (a.type == "fqdn" && strStartsWith a.value1 "*") = true
    · have hstep : wildcardStep d a = dictUpsert d (paSanitizeName a.name) a.value1 := by
        unfold wildcardStep
        rw [if_pos h]
      rw [hstep, mem_dictUpsert_keys]
      constructor
      · rintro ((hd | hke) | ⟨a2, ha2, hc2, hs2⟩)
        · exact Or.inl hd
        · exact Or.inr ⟨a, List.mem_cons_self a l, h, hke.symm⟩
        · exact Or.inr ⟨a2, List.mem_cons_of_mem a ha2, hc2, hs2⟩
      · rintro (hd | ⟨a2, ha2, hc2, hs2⟩)
        · exact Or.inl (Or.inl hd)
        · rcases List.mem_cons.mp ha2 with rfl | ha2l
          · exact Or.inl (Or.inr hs2.symm)
          · exact Or.inr ⟨a2, ha2l, hc2, hs2⟩
    · have hstep : wildcardStep d a = d := by
        unfold wildcardStep
        rw [if_neg h]
      rw [hstep]
      constructor
      · rintro (hd | ⟨a2, ha2, hc2, hs2⟩)
        · exact Or.inl hd
        · exact Or.inr ⟨a2, List.mem_cons_of_mem a ha2, hc2, hs2⟩
      · rintro (hd | ⟨a2, ha2, hc2, hs2⟩)
        · exact Or.inl hd
        · rcases List.mem_cons.mp ha2 with rfl | ha2l
          · exact absurd hc2 h
          · exact Or.inr ⟨a2, ha2l, hc2, hs2⟩

/-- The wildcard-collection fold keeps the key list duplicate-free. -/
theorem wildcard_foldl_keys_nodup (l : List Address) :
    ∀ d : List (String × String),
      (d.map (fun p => p.1)).Nodup → ((l.foldl wildcardStep d).map (fun p => p.1)).Nodup := by
  induction l with
  | nil => intro d h; exact h
  | cons a l ih =>
    intro d h
    rw [List.foldl_cons]
    apply ih
    unfold wildcardStep
    by_cases hc : (a.type == "fqdn" && strStartsWith a.value1 "*") = true
    · rw [if_pos hc]
      exact nodup_dictUpsert_keys d _ _ h
    · rw [if_neg hc]
      exact h

/-- The keys of the wildcard fqdn dict are duplicate-free. -/
theorem wildcardFqdnMap_keys_nodup (addrs : List Address) :
    ((wildcardFqdnMap addrs).map (fun p => p.1)).Nodup :=
  wildcard_foldl_keys_nodup (sortAddrs addrs) [] (by simp)

/-- A key is in the wildcard fqdn dict exactly when some wildcard fqdn
address sanitizes to it. -/
theorem mem_wildcardFqdnMap_keys (addrs : List Address) (k : String) :
    k ∈ (wildcardFqdnMap addrs).map (fun p => p.1) ↔
      ∃ a ∈ addrs, (a.type == "fqdn" && strStartsWith a.value1 "*") = true ∧
        paSanitizeName a.name = k := by
  unfold wildcardFqdnMap
  rw [wildcard_foldl_keys_mem]
  simp only [List.map_nil, List.not_mem_nil, false_or]
  constructor <;> rintro ⟨a, ha, h1, h2⟩
  · exact ⟨a, (List.perm_insertionSort _ addrs).mem_iff.mp ha, h1, h2⟩
  · exact ⟨a, (List.perm_insertionSort _ addrs).mem_iff.mpr ha, h1, h2⟩

/-- A failed containment test means genuine non-membership. -/
theorem notMem_of_notContains (l : List String) (x : String)
    (h : (!l.contains x) = true) : x ∉ l := by
  intro hm
  rw [Bool.not_eq_true'] at h
  have hc : l.contains x = true := List.elem_iff.mpr hm
  rw [hc] at h
  exact Bool.noConfusion h

/-- The source half of a NAT-pool step either changes nothing or appends
one fresh name together with one command bearing that name. -/
theorem natPoolSrcStep_shape (st : List String × List (String × String)) (n : NatRule) :
    natPoolSrcStep st n = st ∨
      ∃ nm cmd, nm ∉ st.1 ∧ natPoolSrcStep st n = (st.1 ++ [nm], st.2 ++ [(nm, cmd)]) := by
  unfold natPoolSrcStep
  repeat' split
  all_goals try (left; rfl)
  all_goals exact Or.inr ⟨_, _, notMem_of_notContains _ _ (by assumption), rfl⟩

/-- The destination half of a NAT-pool step either changes nothing or
appends one fresh name together with one command bearing that name. -/
theorem natPoolDstStep_shape (st : List String × List (String × String)) (n : NatRule) :
    natPoolDstStep st n = st ∨
      ∃ nm cmd, nm ∉ st.1 ∧ natPoolDstStep st n = (st.1 ++ [nm], st.2 ++ [(nm, cmd)]) := by
  unfold natPoolDstStep
  repeat' split
  all_goals try (left; rfl)
  all_goals exact Or.inr ⟨_, _, notMem_of_notContains _ _ (by assumption), rfl⟩

/-- The existing-name set only grows through a NAT-pool step. -/
theorem natPoolStep_exist_mono (st : List String × List (String × String))
    (n : NatRule) : ∀ x ∈ st.1, x ∈ (natPoolStep st n).1 := by
  intro x hx
  unfold natPoolStep
  rcases natPoolSrcStep_shape st n with hs | ⟨nm, cmd, _, hs⟩
  · rw [hs]
    rcases natPoolDstStep_shape st n with hd | ⟨nm2, cmd2, _, hd⟩ <;> rw [hd]
    · exact hx
    · exact List.mem_append_left _ hx
  · rw [hs]
    rcases natPoolDstStep_shape (st.1 ++ [nm], st.2 ++ [(nm, cmd)]) n with
      hd | ⟨nm2, cmd2, _, hd⟩ <;> rw [hd]
    · exact List.mem_append_left _ hx
    · exact List.mem_append_left _ (List.mem_append_left _ hx)

/-- Every command a NAT-pool step emits is named outside the existing-name
set the step started with. -/
theorem natPoolStep_names (st : List String × List (String × String))
    (n : NatRule) (p : String × String) (hp : p ∈ (natPoolStep st n).2) :
    p ∈ st.2 ∨ p.1 ∉ st.1 := by
  unfold natPoolStep at hp
  rcases natPoolSrcStep_shape st n with hs | ⟨nm, cmd, hnm, hs⟩
  · rw [hs] at hp
    rcases natPoolDstStep_shape st n with hd | ⟨nm2, cmd2, hnm2, hd⟩
    · rw [hd] at hp
      exact Or.inl hp
    · rw [hd] at hp
      rcases List.mem_append.mp hp with h | h
      · exact Or.inl h
      · rw [List.mem_singleton] at h
        exact Or.inr (by rw [h]; exact hnm2)
  · rw [hs] at hp
    rcases natPoolDstStep_shape (st.1 ++ [nm], st.2 ++ [(nm, cmd)]) n with
      hd | ⟨nm2, cmd2, hnm2, hd⟩
    · rw [hd] at hp
      rcases List.mem_append.mp hp with h | h
      · exact Or.inl h
      · rw [List.mem_singleton] at h
        exact Or.inr (by rw [h]; exact hnm)
    · rw [hd] at hp
      rcases List.mem_append.mp hp with h | h
      · rcases List.mem_append.mp h with h2 | h2
        · exact Or.inl h2
        · rw [List.mem_singleton] at h2
          exact Or.inr (by rw [h2]; exact hnm)
      · rw [List.mem_singleton] at h
        exact Or.inr (by
          rw [h]
          exact fun hmem => hnm2 (List.mem_append_left _ hmem))

/-- Over the whole NAT-pool fold, every emitted command either was already
emitted or is named outside the initial existing-name set. -/
theorem natPool_fold_names (nats : List NatRule) :
    ∀ (st : List String × List (String × String)) (p : String × String),
      p ∈ (nats.foldl natPoolStep st).2 → p ∈ st.2 ∨ p.1 ∉ st.1 := by
  induction nats with
  | nil => intro st p hp; exact Or.inl hp
  | cons n ns ih =>
    intro st p hp
    rw [List.foldl_cons] at hp
    rcases ih (natPoolStep st n) p hp with hin | hout
    · exact natPoolStep_names st n p hin
    · exact Or.inr (fun hmem => hout (natPoolStep_exist_mono st n _ hmem))

/-- Provenance of a main-loop address command: it comes from a
non-wildcard address and carries that address's sanitized name. -/
theorem mem_paAddressLines (addrs : List Address) (p : String × String)
    (hp : p ∈ paAddressLines addrs) :
    ∃ a ∈ addrs, p.1 = paSanitizeName a.name ∧
      ¬((a.type == "fqdn" && strStartsWith a.value1 "*") = true) := by
  unfold paAddressLines at hp
  rw [List.mem_filterMap] at hp
  obtain ⟨a, ha, hsome⟩ := hp
  have hmem : a ∈ addrs := (List.perm_insertionSort _ addrs).mem_iff.mp ha
  by_cases hwc : (a.type == "fqdn" && strStartsWith a.value1 "*") = true
  · rw [if_pos hwc] at hsome
    exact Option.noConfusion hsome
  · rw [if_neg hwc] at hsome
    refine ⟨a, hmem, ?_, hwc⟩
    split at hsome
    · cases hsome; rfl
    · split at hsome
      · cases hsome; rfl
      · split at hsome
        · cases hsome; rfl
        · split at hsome
          · cases hsome; rfl
          · exact Option.noConfusion hsome

/-- Claim C5 (counterexample): the wildcard address `W` is referenced by
the rule and is moved to the category list — but the rule's destination
also contains `X`, whose DNAT substitution maps back to `W`, so the
emitted destination member list still contains `"W"`: the claim's
"omits that name from its destination list" fails. -/
theorem wildcard_claim_fails_under_dnat_interference :
    (⟨"W", "fqdn", "*.x.com", none⟩ : Address) ∈ cfgC5.addresses ∧
    "W" ∈ ruleC5.destination ∧
    paRuleCategories cfgC5 ruleC5 = ["W"] ∧
    paDestMembersStr cfgC5 ruleC5 = "[ \"W\" ]" := by
  decide

/-- Claim C5 (amended): a wildcard fqdn address (unique under name
sanitization) gets no address-object command at all and exactly one
custom-url-category entry; a rule whose destination references it gets
the sanitized name added to its category set, and the direct reference
contributes nothing to the final destinations — the name can only
reappear there if some other destination member is DNAT-substituted to
it. -/
theorem wildcard_fqdn_becomes_url_category
    (cfg : FirewallConfig) (w : Address) (r : Rule)
    (hw : w ∈ cfg.addresses) (hty : w.type = "fqdn")
    (hstar : strStartsWith w.value1 "*" = true)
    (huniq : ∀ a ∈ cfg.addresses, paSanitizeName a.name = paSanitizeName w.name → a = w)
    (hdest : w.name ∈ r.destination) :
    (∀ p ∈ paAllAddressCommands cfg, p.1 ≠ paSanitizeName w.name) ∧
    ((paUrlCategories cfg).map (fun p => p.1)).count (paSanitizeName w.name) = 1 ∧
    paSanitizeName w.name ∈ paRuleCategories cfg r ∧
    ((∀ d2 ∈ r.destination,
        resolveDest (wildcardFqdnMap cfg.addresses) (dnatReverseMap cfg.nat_rules) d2 ≠
          some w.name) →
      w.name ∉ paRuleFinalDests cfg r) := by
  have hwc : (w.type == "fqdn" && strStartsWith w.value1 "*") = true := by
    rw [hty]
    rw [hstar]
    rfl
  have hkey : paSanitizeName w.name ∈ (wildcardFqdnMap cfg.addresses).map (fun p => p.1) :=
    (mem_wildcardFqdnMap_keys cfg.addresses _).mpr ⟨w, hw, hwc, rfl⟩
  have hsome : (dictFind? (wildcardFqdnMap cfg.addresses) (paSanitizeName w.name)).isSome
      = true := (dictFind_isSome_iff _ _).mpr hkey
  refine ⟨?_, ?_, ?_, ?_⟩
  · intro p hp
    unfold paAllAddressCommands at hp
    rcases List.mem_append.mp hp with hmain | hpool
    · obtain ⟨a, ha, hname, hnotwc⟩ := mem_paAddressLines cfg.addresses p hmain
      intro heq
      have haw : a = w := huniq a ha (by rw [← hname, heq])
      rw [haw] at hnotwc
      exact hnotwc hwc
    · rcases natPool_fold_names cfg.nat_rules _ p hpool with hnil | hout
      · exact absurd hnil (List.not_mem_nil p)
      · intro heq
        exact hout (List.mem_map.mpr ⟨w, hw, heq.symm⟩)
  · exact List.count_eq_one_of_mem (wildcardFqdnMap_keys_nodup cfg.addresses) hkey
  · exact (mem_paRuleCategories cfg r _).mpr ⟨w.name, hdest, hsome, rfl⟩
  · intro hno hmem
    obtain ⟨d2, hd2, hres2⟩ := (mem_paRuleFinalDests cfg r w.name).mp hmem
    exact hno d2 hd2 hres2

/-- Witness for the amended C5 theorem on the spec's scenario 5: the
wildcard address `WildSite` yields one custom-url-category and lands in
the referencing rule's category set. -/
theorem wildcard_fqdn_becomes_url_category_witness :
    "WildSite" ∈ paRuleCategories cfgC5w ruleC5w ∧
      ((paUrlCategories cfgC5w).map (fun p => p.1)).count "WildSite" = 1 := by
  have h := wildcard_fqdn_becomes_url_category cfgC5w addrC5w ruleC5w
    (by decide) rfl (by decide) (by decide) (by decide)
  exact ⟨h.2.2.1, h.2.1⟩

/-! ## Service-split rewrite lemmas (C7) -/

/-- Membership through the reference-rewrite fold for a one-entry split
map, with an arbitrary accumulator. -/
theorem mem_foldl_rewriteStep_singleton (nm gp : String) (members : List String) :
    ∀ (acc : List String) (x : String),
      x ∈ members.foldl (rewriteStep [(nm, [gp])]) acc ↔
        x ∈ acc ∨ (∃ m ∈ members, m ≠ nm ∧ x = m) ∨ (nm ∈ members ∧ x = gp) := by
  induction members with
  | nil => intro acc x; simp
  | cons m ms ih =>
    intro acc x
    rw [List.foldl_cons, ih]
    by_cases hnm : (nm == m) = true
    · have heq : nm = m := beq_iff_eq.mp hnm
      have hstep : rewriteStep [(nm, [gp])] acc m = setInsert acc gp := by
        unfold rewriteStep
        simp only [List.find?]
        rw [hnm]
        rfl
      rw [hstep, mem_setInsert]
      constructor
      · rintro ((hacc | hxg) | (⟨m2, hm2, hne2, hx2⟩ | ⟨hnmm, hxg⟩))
        · exact Or.inl hacc
        · exact Or.inr (Or.inr ⟨by rw [heq]; exact List.mem_cons_self m ms, hxg⟩)
        · exact Or.inr (Or.inl ⟨m2, List.mem_cons_of_mem m hm2, hne2, hx2⟩)
        · exact Or.inr (Or.inr ⟨List.mem_cons_of_mem m hnmm, hxg⟩)
      · rintro (hacc | (⟨m2, hm2, hne2, hx2⟩ | ⟨hnmm, hxg⟩))
        · exact Or.inl (Or.inl hacc)
        · rcases List.mem_cons.mp hm2 with rfl | hm2t
          · exact absurd heq.symm hne2
          · exact Or.inr (Or.inl ⟨m2, hm2t, hne2, hx2⟩)
        · rcases List.mem_cons.mp hnmm with heq2 | hnmt
          · exact Or.inl (Or.inr hxg)
          · exact Or.inr (Or.inr ⟨hnmt, hxg⟩)
    · have hne : nm ≠ m := fun he => hnm (beq_iff_eq.mpr he)
      have hstep : rewriteStep [(nm, [gp])] acc m = setInsert acc m := by
        have hf : (nm == m) = false := by
          rw [Bool.not_eq_true] at hnm
          exact hnm
        unfold rewriteStep
        simp only [List.find?]
        rw [hf]
        rfl
      rw [hstep, mem_setInsert]
      constructor
      · rintro ((hacc | hxm) | (⟨m2, hm2, hne2, hx2⟩ | ⟨hnmm, hxg⟩))
        · exact Or.inl hacc
        · exact Or.inr (Or.inl ⟨m, List.mem_cons_self m ms, Ne.symm hne, hxm⟩)
        · exact Or.inr (Or.inl ⟨m2, List.mem_cons_of_mem m hm2, hne2, hx2⟩)
        · exact Or.inr (Or.inr ⟨List.mem_cons_of_mem m hnmm, hxg⟩)
      · rintro (hacc | (⟨m2, hm2, hne2, hx2⟩ | ⟨hnmm, hxg⟩))
        · exact Or.inl (Or.inl hacc)
        · rcases List.mem_cons.mp hm2 with rfl | hm2t
          · exact Or.inl (Or.inr hx2)
          · exact Or.inr (Or.inl ⟨m2, hm2t, hne2, hx2⟩)
        · rcases List.mem_cons.mp hnmm with heq2 | hnmt
          · exact absurd heq2 hne
          · exact Or.inr (Or.inr ⟨hnmt, hxg⟩)

/-- Membership in a reference set rewritten through a one-entry split map:
the original name disappears (unless it is the group name itself), the
group name appears whenever the original name was referenced, and all
other members survive unchanged. -/
theorem mem_rewriteRefs_singleton (nm gp : String) (members : List String) (x : String) :
    x ∈ rewriteRefs [(nm, [gp])] members ↔
      (x ∈ members ∧ x ≠ nm) ∨ (x = gp ∧ nm ∈ members) := by
  unfold rewriteRefs
  rw [mem_foldl_rewriteStep_singleton]
  simp only [List.not_mem_nil, false_or]
  constructor
  · rintro (⟨m, hm, hne, rfl⟩ | ⟨hnm, rfl⟩)
    · exact Or.inl ⟨hm, hne⟩
    · exact Or.inr ⟨rfl, hnm⟩
  · rintro (⟨hx, hne⟩ | ⟨rfl, hnm⟩)
    · exact Or.inl ⟨x, hx, hne, rfl⟩
    · exact Or.inr ⟨hnm, rfl⟩

/-- Claim C7 (confirmed): a Fortinet custom service entry that sets both a
TCP and a UDP port range parses into exactly the two services
`TCP-<base>` and `UDP-<base>` plus the one service group
`TCP-UDP_<base>` whose members are exactly those two services, and
records the rewrite `original name ↦ [group]`; applying the second pass
with that map rewrites every reference to the original name — in rule
services, NAT original-services and service-group members — to the group
name, keeping every other reference. -/
theorem mixed_tcp_udp_service_splits_into_group
    (entryLines : List String) (cfg : FirewallConfig)
    (sm : List (String × List String))
    (htcp : optTruthy (scanServiceLines entryLines.tail).tcp_port = true)
    (hudp : optTruthy (scanServiceLines entryLines.tail).udp_port = true) :
    (parseServiceEntry entryLines cfg sm).1.services =
      cfg.services ++
        [⟨"TCP-" ++ cleanServiceName (getEditValue (entryLines.headD "")), "tcp",
          fortinetPortStr ((scanServiceLines entryLines.tail).tcp_port.getD "")⟩,
         ⟨"UDP-" ++ cleanServiceName (getEditValue (entryLines.headD "")), "udp",
          fortinetPortStr ((scanServiceLines entryLines.tail).udp_port.getD "")⟩] ∧
    (parseServiceEntry entryLines cfg sm).1.service_groups =
      cfg.service_groups ++
        [⟨"TCP-UDP_" ++ cleanServiceName (getEditValue (entryLines.headD "")),
          ["TCP-" ++ cleanServiceName (getEditValue (entryLines.headD "")),
           "UDP-" ++ cleanServiceName (getEditValue (entryLines.headD ""))]⟩] ∧
    (parseServiceEntry entryLines cfg sm).1.rules = cfg.rules ∧
    (parseServiceEntry entryLines cfg sm).2 =
      sm ++ [(getEditValue (entryLines.headD ""),
        ["TCP-UDP_" ++ cleanServiceName (getEditValue (entryLines.headD ""))])] ∧
    (∀ (members : List String) (x : String),
      x ∈ rewriteRefs
          [(getEditValue (entryLines.headD ""),
            ["TCP-UDP_" ++ cleanServiceName (getEditValue (entryLines.headD ""))])]
          members ↔
        (x ∈ members ∧ x ≠ getEditValue (entryLines.headD "")) ∨
        (x = "TCP-UDP_" ++ cleanServiceName (getEditValue (entryLines.headD "")) ∧
          getEditValue (entryLines.headD "") ∈ members)) ∧
    (∀ cfg2 : FirewallConfig,
      (updateReferences
          [(getEditValue (entryLines.headD ""),
            ["TCP-UDP_" ++ cleanServiceName (getEditValue (entryLines.headD ""))])]
          cfg2).rules.map Rule.service =
        cfg2.rules.map (fun r => rewriteRefs
          [(getEditValue (entryLines.headD ""),
            ["TCP-UDP_" ++ cleanServiceName (getEditValue (entryLines.headD ""))])]
          r.service) ∧
      (updateReferences
          [(getEditValue (entryLines.headD ""),
            ["TCP-UDP_" ++ cleanServiceName (getEditValue (entryLines.headD ""))])]
          cfg2).nat_rules.map NatRule.original_service =
        cfg2.nat_rules.map (fun n => rewriteRefs
          [(getEditValue (entryLines.headD ""),
            ["TCP-UDP_" ++ cleanServiceName (getEditValue (entryLines.headD ""))])]
          n.original_service) ∧
      (updateReferences
          [(getEditValue (entryLines.headD ""),
            ["TCP-UDP_" ++ cleanServiceName (getEditValue (entryLines.headD ""))])]
          cfg2).service_groups.map ServiceGroup.members =
        cfg2.service_groups.map (fun g => rewriteRefs
          [(getEditValue (entryLines.headD ""),
            ["TCP-UDP_" ++ cleanServiceName (getEditValue (entryLines.headD ""))])]
          g.members)) := by
  simp only [parseServiceEntry]
  have hcond : (optTruthy (scanServiceLines entryLines.tail).tcp_port &&
      optTruthy (scanServiceLines entryLines.tail).udp_port) = true := by
    rw [htcp, hudp]
    rfl
  rw [if_pos hcond]
  refine ⟨rfl, rfl, rfl, rfl, ?_, ?_⟩
  · intro members x
    exact mem_rewriteRefs_singleton _ _ members x
  · intro cfg2
    unfold updateReferences
    rw [if_neg (fun h => Bool.noConfusion h)]
    refine ⟨?_, ?_, ?_⟩
    · rw [List.map_map]
      rfl
    · rw [List.map_map]
      rfl
    · rw [List.map_map]
      rfl

/-- Witness for C7 on the spec's scenario 4 (`DNS-ALT` with TCP and UDP
port range 5353). -/
theorem mixed_tcp_udp_service_splits_witness :
    (parseServiceEntry entC7 {} []).1.services =
      [⟨"TCP-DNS-ALT", "tcp", "eq 5353"⟩, ⟨"UDP-DNS-ALT", "udp", "eq 5353"⟩] ∧
    (parseServiceEntry entC7 {} []).2 = [("DNS-ALT", ["TCP-UDP_DNS-ALT"])] := by
  have h := mixed_tcp_udp_service_splits_into_group entC7 {} [] (by decide) (by decide)
  exact ⟨h.1, h.2.2.2.1⟩

end FwConv
